import Mathlib

/-!
Verification of the ordered resource lifecycle orchestrator of the kots
operator client (pkg/operator/client/manifest_delete.go).

The Go code is shallowly embedded:
  - Go strings stay `String`; Go byte-wise string comparison (`sort.Strings`)
    is embedded as an executable code-point lexicographic order, which agrees
    with Go's byte-wise UTF-8 order.
  - a Go `map[string][]resource` is embedded as an association list together
    with lookup/insert operations reproducing Go map semantics (indexing a
    missing key yields the zero value; `append` on a missing key creates it).
    The code never ranges over one of these maps, so the undetermined Go map
    iteration order is irrelevant.
  - Go nil pointers are `Option`; a nil-pointer dereference (a Go panic) makes
    the embedded function return `none`.
  - the Kubernetes dynamic client is a parameter: a state type `σ` with a
    pure `listNS` view and a state-passing `deleteObj` action.
  - calls to `logger` and `time.Sleep` carry no data flow; sleeps and list
    passes are recorded in an explicit trace so that iteration counts and
    sleep durations can be stated.
-/

namespace KotsManifestDelete

/-! ## Byte-wise string order, mirroring Go's `sort.Strings` comparison -/

/-- Strict order on characters by code point, mirroring Go byte order
(UTF-8 byte order coincides with code-point order). -/
def charLt (a b : Char) : Bool := a.toNat < b.toNat

/-- Lexicographic order on character lists, mirroring Go `s1 <= s2`. -/
def listCharLe : List Char → List Char → Bool
  | [], _ => true
  | _ :: _, [] => false
  | a :: as, b :: bs =>
    if charLt a b then true
    else if charLt b a then false
    else listCharLe as bs

/-- Lexicographic order on strings, mirroring Go string comparison. -/
def strLe (a b : String) : Bool := listCharLe a.data b.data

theorem charEq_of_not_lt {a b : Char} (h1 : charLt a b = false) (h2 : charLt b a = false) :
    a = b := by
  simp [charLt] at h1 h2
  exact Char.ext (UInt32.ext (Nat.le_antisymm h2 h1))

theorem charLt_irrefl (a : Char) : charLt a a = false := by simp [charLt]

theorem listCharLe_cons_iff {a b : Char} {as bs : List Char} :
    listCharLe (a :: as) (b :: bs) = true ↔
      (charLt a b = true ∨ (a = b ∧ listCharLe as bs = true)) := by
  by_cases hab : charLt a b = true
  · simp [listCharLe, hab]
  · by_cases hba : charLt b a = true
    · have : ¬ a = b := by
        intro h; subst h; rw [charLt_irrefl] at hba; cases hba
      simp [listCharLe, hab, hba, this]
    · have heq := charEq_of_not_lt (Bool.eq_false_iff.mpr hab) (Bool.eq_false_iff.mpr hba)
      subst heq
      simp [listCharLe, charLt_irrefl]

theorem charLt_trans {a b c : Char} (h1 : charLt a b = true) (h2 : charLt b c = true) :
    charLt a c = true := by simp [charLt] at *; omega

theorem listCharLe_trans : ∀ {l1 l2 l3}, listCharLe l1 l2 = true → listCharLe l2 l3 = true →
    listCharLe l1 l3 = true
  | [], _, _, _, _ => rfl
  | _ :: _, [], _, h, _ => by simp [listCharLe] at h
  | _ :: _, _ :: _, [], _, h => by simp [listCharLe] at h
  | a :: as, b :: bs, c :: cs, h1, h2 => by
    rw [listCharLe_cons_iff] at h1 h2 ⊢
    rcases h1 with h1 | ⟨rfl, h1⟩
    · rcases h2 with h2 | ⟨rfl, h2⟩
      · exact Or.inl (charLt_trans h1 h2)
      · exact Or.inl h1
    · rcases h2 with h2 | ⟨rfl, h2⟩
      · exact Or.inl h2
      · exact Or.inr ⟨rfl, listCharLe_trans h1 h2⟩

theorem listCharLe_total : ∀ l1 l2, listCharLe l1 l2 = true ∨ listCharLe l2 l1 = true
  | [], _ => Or.inl rfl
  | _ :: _, [] => Or.inr rfl
  | a :: as, b :: bs => by
    rw [listCharLe_cons_iff, listCharLe_cons_iff]
    by_cases hab : charLt a b = true
    · exact Or.inl (Or.inl hab)
    · by_cases hba : charLt b a = true
      · exact Or.inr (Or.inl hba)
      · have heq := charEq_of_not_lt (Bool.eq_false_iff.mpr hab) (Bool.eq_false_iff.mpr hba)
        subst heq
        rcases listCharLe_total as bs with h | h
        · exact Or.inl (Or.inr ⟨rfl, h⟩)
        · exact Or.inr (Or.inr ⟨rfl, h⟩)

theorem listCharLe_antisymm : ∀ {l1 l2}, listCharLe l1 l2 = true → listCharLe l2 l1 = true →
    l1 = l2
  | [], [], _, _ => rfl
  | [], _ :: _, _, h => by simp [listCharLe] at h
  | _ :: _, [], h, _ => by simp [listCharLe] at h
  | a :: as, b :: bs, h1, h2 => by
    rw [listCharLe_cons_iff] at h1 h2
    rcases h1 with h1 | ⟨rfl, h1⟩
    · rcases h2 with h2 | ⟨heq, h2⟩
      · simp [charLt] at h1 h2; omega
      · subst heq; rw [charLt_irrefl] at h1; cases h1
    · rcases h2 with h2 | ⟨_, h2⟩
      · rw [charLt_irrefl] at h2; cases h2
      · rw [listCharLe_antisymm h1 h2]

theorem strLe_total (a b : String) : strLe a b = true ∨ strLe b a = true :=
  listCharLe_total a.data b.data

theorem strLe_trans {a b c : String} (h1 : strLe a b = true) (h2 : strLe b c = true) :
    strLe a c = true := listCharLe_trans h1 h2

theorem strLe_antisymm {a b : String} (h1 : strLe a b = true) (h2 : strLe b a = true) : a = b :=
  String.ext (listCharLe_antisymm h1 h2)

/-- The string order as a proposition, for use with `List.insertionSort`. -/
def strLeP (a b : String) : Prop := strLe a b = true

instance : DecidableRel strLeP := fun a b => inferInstanceAs (Decidable (strLe a b = true))

instance : IsTotal String strLeP := ⟨strLe_total⟩

instance : IsTrans String strLeP := ⟨fun _ _ _ => strLe_trans⟩

instance : IsAntisymm String strLeP := ⟨fun _ _ => strLe_antisymm⟩

/-- Embedding of Go's `sort.Strings` (ascending byte-wise sort). -/
def sortStrings (l : List String) : List String := List.insertionSort strLeP l

/-- Sorting two lists that are permutations of each other yields the same list. -/
theorem sortStrings_eq_of_perm {l1 l2 : List String} (h : l1.Perm l2) :
    sortStrings l1 = sortStrings l2 :=
  List.eq_of_perm_of_sorted
    (((List.perm_insertionSort strLeP l1).trans h).trans (List.perm_insertionSort strLeP l2).symm)
    (List.sorted_insertionSort strLeP l1) (List.sorted_insertionSort strLeP l2)

theorem sortStrings_perm (l : List String) : (sortStrings l).Perm l :=
  List.perm_insertionSort strLeP l

/-! ## Data model (mirrors the Go structs used by manifest_delete.go) -/

/-- Mirrors `schema.GroupVersionKind`. -/
structure GroupVersionKind where
  group : String
  version : String
  kind : String
deriving DecidableEq

/-- Mirrors `schema.GroupVersionResource`. -/
structure GroupVersionResource where
  group : String
  version : String
  resource : String
deriving DecidableEq

/-- Mirrors one entry of `crd.Spec.Versions` (only the `Name` field is read). -/
structure CrdVersion where
  name : String
deriving DecidableEq

/-- Mirrors `crd.Spec.Names` (only the `Kind` field is read). -/
structure CrdNames where
  kind : String
deriving DecidableEq

/-- Mirrors the fields of `apiextensionsv1.CustomResourceDefinition.Spec` read by
`buildCrdGVKMap`: `Spec.Group`, `Spec.Names.Kind`, `Spec.Versions`. -/
structure CrdSpec where
  group : String
  names : CrdNames
  versions : List CrdVersion
deriving DecidableEq

/-- Mirrors the accessor results of a `*unstructured.Unstructured` object:
`GetKind`, `GetName`, `GetNamespace`, `GetAnnotations`, `GetLabels`,
`GetDeletionTimestamp`, and the `GroupVersionKind` of its object kind.
The field `crdConv` models the result of
`runtime.DefaultUnstructuredConverter.FromUnstructured` into a
`CustomResourceDefinition`: `none` when that conversion fails. -/
structure Unstructured where
  apiGroup : String
  apiVersion : String
  kind : String
  name : String
  ns : String
  annotations : List (String × String)
  labels : List (String × String)
  hasDeletionTimestamp : Bool
  crdConv : Option CrdSpec
deriving DecidableEq

/-- Mirrors the Go struct `resource` of manifest_delete.go. The Go pointers
`GVK *schema.GroupVersionKind` and `Unstructured *unstructured.Unstructured`
become `Option`s; `none` is the nil pointer. -/
structure Resource where
  wait : Bool
  manifest : String
  gvr : GroupVersionResource
  gvk : Option GroupVersionKind
  unstructured : Option Unstructured
deriving DecidableEq

/-- Mirrors `KindOrder` (pre-order and post-order kind lists). -/
structure KindOrder where
  preOrder : List String
  postOrder : List String
deriving DecidableEq

/-- Mirrors the package-level `defaultKindDeleteOrder` value. -/
def defaultKindDeleteOrder : KindOrder :=
  { preOrder := ["CustomResource", "APIService", "Ingress", "Service", "CronJob", "Job",
      "StatefulSet", "HorizontalPodAutoscaler", "Deployment", "ReplicaSet",
      "ReplicationController", "Pod", "DaemonSet", "RoleBindingList", "RoleBinding",
      "RoleList", "Role", "ClusterRoleBindingList", "ClusterRoleBinding",
      "ClusterRoleList", "ClusterRole"],
    postOrder := ["CustomResourceDefinition", "PersistentVolumeClaim", "PersistentVolume",
      "StorageClass", "ConfigMap", "SecretList", "Secret", "ServiceAccount",
      "PodDisruptionBudget", "PodSecurityPolicy", "LimitRange", "ResourceQuota"] }

/-! ## Go map semantics for `map[string][]resource`

The maps are embedded as association lists. `mapGet` is Go map indexing (zero
value `[]` for a missing key), `mapHas` the `_, ok :=` form, `mapSet` is map
assignment (replace or add), `mapAppend` is the Go idiom
`m[k] = append(m[k], r)` which creates the key when missing. -/

/-- Association-list embedding of the Go `map[string][]resource`. -/
abbrev ResourceMap := List (String × List Resource)

/-- Go `_, ok := m[k]` membership test. -/
def mapHas : ResourceMap → String → Bool
  | [], _ => false
  | p :: m, k => if p.1 = k then true else mapHas m k

/-- Go `m[k]` indexing: the zero value `[]` when the key is missing. -/
def mapGet : ResourceMap → String → List Resource
  | [], _ => []
  | p :: m, k => if p.1 = k then p.2 else mapGet m k

/-- Go `m[k] = v` assignment: replaces the binding, or adds it. -/
def mapSet : ResourceMap → String → List Resource → ResourceMap
  | [], k, v => [(k, v)]
  | p :: m, k, v => if p.1 = k then (k, v) :: m else p :: mapSet m k v

/-- Go `m[k] = append(m[k], r)`. -/
def mapAppend (m : ResourceMap) (k : String) (r : Resource) : ResourceMap :=
  mapSet m k (mapGet m k ++ [r])

theorem mapHas_mapSet : ∀ (m : ResourceMap) (k k' : String) (v : List Resource),
    mapHas (mapSet m k v) k' = if k' = k then true else mapHas m k'
  | [], k, k', v => by
    by_cases h : k = k'
    · rw [if_pos h.symm]; simp [mapSet, mapHas, if_pos h]
    · rw [if_neg (fun hh => h hh.symm)]; simp [mapSet, mapHas, if_neg h]
  | p :: m, k, k', v => by
    by_cases hp : p.1 = k
    · rw [mapSet, if_pos hp, mapHas]
      by_cases h : k = k'
      · rw [if_pos h, if_pos h.symm]
      · rw [if_neg h, if_neg (fun hh => h hh.symm), mapHas, if_neg (fun hh => h (hp ▸ hh))]
    · rw [mapSet, if_neg hp, mapHas, mapHas_mapSet m k k' v, mapHas]
      by_cases h : k' = k
      · rw [if_pos h, if_pos h]
        by_cases hpk : p.1 = k'
        · exact absurd (h ▸ hpk) hp
        · rw [if_neg hpk]
      · rw [if_neg h, if_neg h]

theorem mapGet_mapSet : ∀ (m : ResourceMap) (k k' : String) (v : List Resource),
    mapGet (mapSet m k v) k' = if k' = k then v else mapGet m k'
  | [], k, k', v => by
    by_cases h : k = k'
    · rw [if_pos h.symm]; simp [mapSet, mapGet, if_pos h]
    · rw [if_neg (fun hh => h hh.symm)]; simp [mapSet, mapGet, if_neg h]
  | p :: m, k, k', v => by
    by_cases hp : p.1 = k
    · rw [mapSet, if_pos hp, mapGet]
      by_cases h : k = k'
      · rw [if_pos h, if_pos h.symm]
      · rw [if_neg h, if_neg (fun hh => h hh.symm), mapGet, if_neg (fun hh => h (hp ▸ hh))]
    · rw [mapSet, if_neg hp, mapGet, mapGet_mapSet m k k' v, mapGet]
      by_cases h : k' = k
      · rw [if_pos h, if_pos h]
        by_cases hpk : p.1 = k'
        · exact absurd (h ▸ hpk) hp
        · rw [if_neg hpk]
      · rw [if_neg h, if_neg h]

theorem mapGet_mapAppend (m : ResourceMap) (k k' : String) (r : Resource) :
    mapGet (mapAppend m k r) k' = if k' = k then mapGet m k ++ [r] else mapGet m k' :=
  mapGet_mapSet m k k' _

theorem mapHas_mapAppend (m : ResourceMap) (k k' : String) (r : Resource) :
    mapHas (mapAppend m k r) k' = if k' = k then true else mapHas m k' :=
  mapHas_mapSet m k k' _

/-! ## Ordering core (manifest_delete.go lines 87-254) -/

/-- Mirrors `initResourceKindOrderMap` (lines 87-96): one empty bucket per
pre-order kind, then per post-order kind. -/
def initResourceKindOrderMap (kindOrder : KindOrder) : ResourceMap :=
  let m := kindOrder.preOrder.foldl (fun m resourceType => mapSet m resourceType []) []
  kindOrder.postOrder.foldl (fun m resourceType => mapSet m resourceType []) m

/-- Mirrors `getOrderedKinds` (lines 99-106): `sort.Strings(defaultKinds)` then
`preOrder ++ defaultKinds ++ postOrder`. -/
def getOrderedKinds (kindOrder : KindOrder) (defaultKinds : List String) : List String :=
  kindOrder.preOrder ++ sortStrings defaultKinds ++ kindOrder.postOrder

/-- Mirrors `shouldResourceWaitForDeletion` (lines 243-250) on a non-nil
unstructured object; the nil-pointer dereference of `resource.GetKind()` is
handled at the call site. -/
def shouldResourceWaitForDeletion (u : Unstructured) (waitFlag : Bool) : Bool :=
  if u.kind = "PersistentVolumeClaim" then false else waitFlag

/-- Mirrors `buildGVKKey` (lines 252-254). -/
def buildGVKKey (group kind version : String) : String :=
  group ++ "/" ++ kind ++ "/" ++ version

/-- Mirrors `decodeManifests` (lines 148-162). The decoder
`decodeToUnstructured` (lines 164-178) runs entirely in external Kubernetes
decoding libraries, so it is a parameter `dec`: on failure (`none`) the
resource is still appended, with nil object and nil GVK, preserving the raw
manifest text. -/
def decodeManifests (dec : String → Option (Unstructured × GroupVersionKind))
    (manifests : List String) : List Resource :=
  manifests.map (fun manifest =>
    match dec manifest with
    | none =>
      { wait := false, manifest := manifest, gvr := ⟨"", "", ""⟩,
        gvk := none, unstructured := none }
    | some (obj, gvk) =>
      { wait := false, manifest := manifest, gvr := ⟨"", "", ""⟩,
        gvk := some gvk, unstructured := some obj })

/-- One `for` body of `buildCrdGVKMap` (lines 183-198). `r.GVK.Kind` is read
without a nil check, so a resource whose decode failed (nil `GVK`) makes the
Go code panic: embedded as `none`. A failed conversion to a typed CRD is
skipped. The Go `map[string]bool` only ever answers membership queries, so it
is embedded as the list of inserted keys. -/
def buildCrdGVKStep (acc : List String) (r : Resource) : Option (List String) :=
  match r.gvk with
  | none => none
  | some gvk =>
    if gvk.kind = "CustomResourceDefinition" then
      match r.unstructured with
      | none => none
      | some u =>
        match u.crdConv with
        | none => some acc
        | some crd =>
          some (acc ++ crd.versions.map
            (fun version => buildGVKKey crd.group crd.names.kind version.name))
    else
      some acc

/-- The `for` loop of `buildCrdGVKMap` (lines 183-198). -/
def buildCrdGVKLoop : List Resource → List String → Option (List String)
  | [], acc => some acc
  | r :: rest, acc =>
    match buildCrdGVKStep acc r with
    | none => none
    | some acc1 => buildCrdGVKLoop rest acc1

/-- Mirrors `buildCrdGVKMap` (lines 181-200). -/
def buildCrdGVKMap (resources : List Resource) : Option (List String) :=
  buildCrdGVKLoop resources []

/-- The per-resource mutation of `r` performed at the top of the loop of
`buildDeleteKindOrderedResources` (lines 207-210): set `r.Wait`, and default
the namespace to `defaultNS` when it is empty. -/
def adjustResource (defaultNS : String) (waitFlag : Bool) (r : Resource)
    (u : Unstructured) : Resource :=
  { r with
    wait := shouldResourceWaitForDeletion u waitFlag,
    unstructured := some (if u.ns = "" then { u with ns := defaultNS } else u) }

/-- One loop body of `buildDeleteKindOrderedResources` (lines 206-237), acting
on the state (collected `defaultOrder`, bucket map). Reading `r.Unstructured`
through `GetKind`/`GetNamespace` dereferences the pointer, so a nil object
panics (`none`). -/
def classifyStep (crdGVKMap : List String) (defaultNS : String) (waitFlag : Bool)
    (st : List String × ResourceMap) (r0 : Resource) :
    Option (List String × ResourceMap) :=
  match r0.unstructured with
  | none => none
  | some u =>
    let r := adjustResource defaultNS waitFlag r0 u
    let defaultOrder := st.1
    let m := st.2
    match r.gvk with
    | none =>
      if mapHas m "" then some (defaultOrder, mapAppend m "" r)
      else some (defaultOrder ++ [""], mapAppend (mapSet m "" []) "" r)
    | some gvk =>
      if (crdGVKMap.contains (buildGVKKey gvk.group gvk.kind gvk.version)) then
        if mapHas m gvk.kind then some (defaultOrder, mapAppend m gvk.kind r)
        else some (defaultOrder, mapAppend m "CustomResource" r)
      else
        if mapHas m gvk.kind then some (defaultOrder, mapAppend m gvk.kind r)
        else some (defaultOrder ++ [gvk.kind], mapAppend (mapSet m gvk.kind []) gvk.kind r)

/-- The `for _, r := range resources` loop of `buildDeleteKindOrderedResources`
(lines 206-237). -/
def classifyFold (crdGVKMap : List String) (defaultNS : String) (waitFlag : Bool) :
    List Resource → (List String × ResourceMap) → Option (List String × ResourceMap)
  | [], st => some st
  | r :: rest, st =>
    match classifyStep crdGVKMap defaultNS waitFlag st r with
    | none => none
    | some st1 => classifyFold crdGVKMap defaultNS waitFlag rest st1

/-- Mirrors `buildDeleteKindOrderedResources` (lines 203-241). -/
def buildDeleteKindOrderedResources (deleteKindOrder : KindOrder)
    (resources : List Resource) (defaultNS : String) (crdGVKMap : List String)
    (waitFlag : Bool) : Option (ResourceMap × List String) :=
  match classifyFold crdGVKMap defaultNS waitFlag resources
      ([], initResourceKindOrderMap deleteKindOrder) with
  | none => none
  | some st => some (st.2, getOrderedKinds deleteKindOrder st.1)

/-- The delete command issued to `kubernetesApplier.Remove` (line 138):
namespace, raw manifest bytes, wait flag. -/
structure DeleteCmd where
  ns : String
  manifest : String
  waitFlag : Bool
deriving DecidableEq

/-- Mirrors `deleteManifestResource` (lines 121-146). On a non-nil `GVK` the
namespace comes from the object (dereferencing `r.Unstructured`: nil panics);
the applier's stdout/stderr/err are only logged, so the function always
produces its one delete command. -/
def deleteManifestResource (r : Resource) (targetNS : String) : Option DeleteCmd :=
  match r.gvk with
  | none => some { ns := targetNS, manifest := r.manifest, waitFlag := r.wait }
  | some _ =>
    match r.unstructured with
    | none => none
    | some u => some { ns := u.ns, manifest := r.manifest, waitFlag := r.wait }

/-- The inner `for _, r := range deleteOrderResourceMap[kind]` loop of
`deleteManifestResources` (lines 115-117). Every resource of the bucket gets
its delete attempted; applier failures are only logged, so nothing stops the
walk (short of the nil-pointer panic). -/
def deleteManifestBucket (targetNS : String) :
    List Resource → List DeleteCmd → Option (List DeleteCmd)
  | [], acc => some acc
  | r :: rest, acc =>
    match deleteManifestResource r targetNS with
    | none => none
    | some cmd => deleteManifestBucket targetNS rest (acc ++ [cmd])

/-- Mirrors the emission loops of `deleteManifestResources` (lines 113-118):
for each kind in order, for each bucketed resource, issue its delete. -/
def deleteManifestCmds (deleteOrderResourceMap : ResourceMap) :
    List String → String → List DeleteCmd → Option (List DeleteCmd)
  | [], _, acc => some acc
  | kind :: rest, targetNS, acc =>
    match deleteManifestBucket targetNS (mapGet deleteOrderResourceMap kind) acc with
    | none => none
    | some acc1 => deleteManifestCmds deleteOrderResourceMap rest targetNS acc1

/-- Mirrors `deleteManifestResources` (lines 108-119): decode, build the CRD
index, classify, then emit deletes kind by kind. `none` is a Go panic. -/
def deleteManifestResources (dec : String → Option (Unstructured × GroupVersionKind))
    (manifests : List String) (targetNS : String) (kindDeleteOrder : KindOrder)
    (waitFlag : Bool) : Option (List DeleteCmd) :=
  let resources := decodeManifests dec manifests
  match buildCrdGVKMap resources with
  | none => none
  | some crdGVKMap =>
    match buildDeleteKindOrderedResources kindDeleteOrder resources targetNS crdGVKMap
        waitFlag with
    | none => none
    | some (deleteOrderResourceMap, deleteOrderedKinds) =>
      deleteManifestCmds deleteOrderResourceMap deleteOrderedKinds targetNS []

/-! ## Namespace reconciler (manifest_delete.go lines 256-385) -/

/-- Models `*metav1.LabelSelector` as consumed here: the external converter
`metav1.LabelSelectorAsSelector` either fails or yields a predicate on a
label set, so the selector carries that conversion result. -/
structure LabelSelector where
  conv : Option (List (String × String) → Bool)

/-- Models the external call `metav1.LabelSelectorAsSelector` together with the
wrapping of its error (line 332-335). -/
def labelSelectorAsSelector (sel : LabelSelector) :
    Except String (List (String × String) → Bool) :=
  match sel.conv with
  | some f => Except.ok f
  | none => Except.error "failed to convert label selector to a selector"

/-- The Kubernetes dynamic client, as used by the reconciler: a cluster-state
type `σ` with a read-only namespaced List and a state-changing Delete.
`listNS` returning `none` models `unstructuredList == nil` (a failed List);
`deleteObj` returns an optional error message and the successor state. -/
structure DynClient (σ : Type) where
  listNS : σ → GroupVersionResource → String → Option (List Unstructured)
  deleteObj : σ → GroupVersionResource → String → String → Option String × σ

/-- Go map lookup `labels[k]` / `annotations[k]`: the zero value `""` when the
key is missing (also on a nil map). -/
def lookupDefault (l : List (String × String)) (k : String) : String :=
  match l.find? (fun p => p.1 = k) with
  | some p => p.2
  | none => ""

/-- Go `v, exists := labels[k]` form. -/
def lookupHas (l : List (String × String)) (k : String) : Option String :=
  (l.find? (fun p => p.1 = k)).map (·.2)

/-- The `resource` record built for one listed live object (lines 351-356):
zero-value wait and manifest, the listed GVR, the object kind from
`u.GetObjectKind().GroupVersionKind()`, and the object itself. -/
def nsResource (gvr : GroupVersionResource) (u : Unstructured) : Resource :=
  { wait := false, manifest := "", gvr := gvr,
    gvk := some ⟨u.apiGroup, u.apiVersion, u.kind⟩, unstructured := some u }

/-- The ownership check and bucketing of one listed item (lines 342-364):
include the object only when its `kots.io/app-slug` annotation equals the
target application slug, skip objects already pending deletion, then bucket by
`u.GetKind()` collecting newly seen kinds. -/
def buildNSBucket (appSlug : String) (gvr : GroupVersionResource)
    (st : ResourceMap × List String) (u : Unstructured) :
    ResourceMap × List String :=
  let m := st.1
  let defaultKindOrder := st.2
  if lookupDefault u.annotations "kots.io/app-slug" = appSlug then
    if u.hasDeletionTimestamp then st
    else
      let r : Resource := nsResource gvr u
      if mapHas m u.kind then (mapAppend m u.kind r, defaultKindOrder)
      else (mapAppend (mapSet m u.kind []) u.kind r, defaultKindOrder ++ [u.kind])
  else st

/-- One item body of the `for _, u := range unstructuredList.Items` loop of
`buildDeleteKindOrderedNamespaceResources` (lines 325-365): restore-mode
filtering (the explicit exclude-from-backup marker, then the converted
restore selector, whose conversion failure is returned at once), followed by
the ownership check and bucketing. -/
def buildNSItemStep (appSlug : String) (isRestore : Bool)
    (restoreLabelSelector : Option LabelSelector) (gvr : GroupVersionResource)
    (st : ResourceMap × List String) (u : Unstructured) :
    Except String (ResourceMap × List String) :=
  if isRestore then
    if lookupHas u.labels "velero.io/exclude-from-backup" = some "true" then
      Except.ok st
    else
      match restoreLabelSelector with
      | some sel =>
        match labelSelectorAsSelector sel with
        | Except.error e => Except.error e
        | Except.ok sfn =>
          if sfn u.labels = true then Except.ok (buildNSBucket appSlug gvr st u)
          else Except.ok st
      | none => Except.ok (buildNSBucket appSlug gvr st u)
  else Except.ok (buildNSBucket appSlug gvr st u)

/-- The inner `for _, u := range unstructuredList.Items` loop of
`buildDeleteKindOrderedNamespaceResources` (lines 325-365). -/
def buildNSItems (appSlug : String) (isRestore : Bool)
    (restoreLabelSelector : Option LabelSelector) (gvr : GroupVersionResource) :
    List Unstructured → (ResourceMap × List String) →
    Except String (ResourceMap × List String)
  | [], st => Except.ok st
  | u :: rest, st =>
    match buildNSItemStep appSlug isRestore restoreLabelSelector gvr st u with
    | Except.error e => Except.error e
    | Except.ok st1 => buildNSItems appSlug isRestore restoreLabelSelector gvr rest st1

/-- One body of the outer `for _, gvr := range gvrs` loop (lines 317-366): a
nil List result is logged and skipped (the state is unchanged), otherwise the
listed items are processed. -/
def buildNSGvrStep {σ : Type} (dyn : DynClient σ) (s : σ) (appSlug : String)
    (ns : String) (isRestore : Bool) (restoreLabelSelector : Option LabelSelector)
    (gvr : GroupVersionResource) (st : ResourceMap × List String) :
    Except String (ResourceMap × List String) :=
  match dyn.listNS s gvr ns with
  | none => Except.ok st
  | some items => buildNSItems appSlug isRestore restoreLabelSelector gvr items st

/-- The outer `for _, gvr := range gvrs` loop of
`buildDeleteKindOrderedNamespaceResources` (lines 316-366). -/
def buildNSGvrs {σ : Type} (dyn : DynClient σ) (s : σ) (appSlug : String)
    (ns : String) (isRestore : Bool) (restoreLabelSelector : Option LabelSelector) :
    List GroupVersionResource → (ResourceMap × List String) →
    Except String (ResourceMap × List String)
  | [], st => Except.ok st
  | gvr :: rest, st =>
    match buildNSGvrStep dyn s appSlug ns isRestore restoreLabelSelector gvr st with
    | Except.error e => Except.error e
    | Except.ok st1 =>
      buildNSGvrs dyn s appSlug ns isRestore restoreLabelSelector rest st1

/-- Mirrors `buildDeleteKindOrderedNamespaceResources` (lines 313-370). -/
def buildDeleteKindOrderedNamespaceResources {σ : Type} (dyn : DynClient σ)
    (s : σ) (gvrs : List GroupVersionResource) (appSlug : String) (ns : String)
    (isRestore : Bool) (restoreLabelSelector : Option LabelSelector)
    (deleteKindOrder : KindOrder) : Except String (ResourceMap × List String) :=
  match buildNSGvrs dyn s appSlug ns isRestore restoreLabelSelector gvrs
      (initResourceKindOrderMap deleteKindOrder, []) with
  | Except.error e => Except.error e
  | Except.ok st => Except.ok (st.1, getOrderedKinds deleteKindOrder st.2)

/-- The sequential delete pass of `clearNamespacedResources` (lines 373-383)
over the flattened kind-ordered resource list: on the first Delete error,
return it at once. `u.GetName()` dereferences `r.Unstructured`, so a nil
object panics (`none`). The third component records the resources for which a
Delete call was actually issued. -/
def deleteSeq {σ : Type} (dyn : DynClient σ) (ns : String) :
    σ → List Resource → List Resource → Option (Option String × σ × List Resource)
  | s, [], attempted => some (none, s, attempted)
  | s, r :: rest, attempted =>
    match r.unstructured with
    | none => none
    | some u =>
      match dyn.deleteObj s r.gvr ns u.name with
      | (some e, s1) => some (some e, s1, attempted ++ [r])
      | (none, s1) => deleteSeq dyn ns s1 rest (attempted ++ [r])

/-- The resources of `resourcesMap`, flattened in delete-kind order, exactly as
the nested loops of `clearNamespacedResources` walk them. -/
def flattenByKinds (resourcesMap : ResourceMap) (deleteKindOrders : List String) :
    List Resource :=
  (deleteKindOrders.map (fun kind => mapGet resourcesMap kind)).flatten

/-- Mirrors `clearNamespacedResources` (lines 372-385); the nested kind and
bucket loops are flattened into one sequential pass, preserving order and the
immediate return on a Delete error. -/
def clearNamespacedResources {σ : Type} (dyn : DynClient σ) (s : σ) (ns : String)
    (resourcesMap : ResourceMap) (deleteKindOrders : List String) :
    Option (Option String × σ × List Resource) :=
  deleteSeq dyn ns s (flattenByKinds resourcesMap deleteKindOrders) []

/-- The fixed skip set of `clearNamespaces` (lines 258-268). -/
def skipEndpoints : List String :=
  ["/v1/bindings", "/v1/events", "extensions/v1beta1/replicationcontrollers",
   "apps/v1/controllerrevisions", "authentication.k8s.io/v1/tokenreviews",
   "authorization.k8s.io/v1/localsubjectaccessreviews",
   "authorization.k8s.io/v1/subjectaccessreviews",
   "authorization.k8s.io/v1/selfsubjectaccessreviews",
   "authorization.k8s.io/v1/selfsubjectrulesreviews"]

/-- Mirrors the construction of `deletionGVRs` (lines 270-276). -/
def filterDeletionGVRs (gvrs : List GroupVersionResource) : List GroupVersionResource :=
  gvrs.filter
    (fun gvr => ¬ skipEndpoints.contains
      (gvr.group ++ "/" ++ gvr.version ++ "/" ++ gvr.resource))

/-- Trace of the observable effects of one `clearNamespaces` call: how many
List passes ran, and the sequence of sleep durations in seconds. -/
structure ClearTrace where
  listPasses : Nat
  sleepsSec : List Nat
deriving DecidableEq

/-- Records one more list pass. -/
def ClearTrace.bumpList (tr : ClearTrace) : ClearTrace :=
  { tr with listPasses := tr.listPasses + 1 }

/-- Records one sleep of `n` seconds. -/
def ClearTrace.addSleep (tr : ClearTrace) (n : Nat) : ClearTrace :=
  { tr with sleepsSec := tr.sleepsSec ++ [n] }

/-- Outcome of one iteration of the per-namespace retry loop: the loop either
breaks out (list error, empty map, or fully successful delete pass) or goes
around again after a delete error. -/
inductive IterOutcome (σ : Type) where
  | halt : σ → IterOutcome σ
  | again : σ → IterOutcome σ

/-- One iteration of the `for i := 60; i >= 0; i--` loop of `clearNamespaces`
(lines 282-295): build the ordered live delete set (an error is logged and
breaks), break when the bucket map has no keys (`len(resourcesToDelete) == 0`
is Go map length, i.e. the number of keys), run the delete pass, break when it
fully succeeded, otherwise go around. -/
def clearNamespaceIter {σ : Type} (dyn : DynClient σ)
    (gvrs : List GroupVersionResource) (appSlug ns : String) (isRestore : Bool)
    (restoreLabelSelector : Option LabelSelector) (kindDeleteOrder : KindOrder)
    (s : σ) : Option (IterOutcome σ) :=
  match buildDeleteKindOrderedNamespaceResources dyn s gvrs appSlug ns isRestore
      restoreLabelSelector kindDeleteOrder with
  | Except.error _ => some (IterOutcome.halt s)
  | Except.ok (resourcesToDelete, deleteOrderedKinds) =>
    if resourcesToDelete.length = 0 then some (IterOutcome.halt s)
    else
      match clearNamespacedResources dyn s ns resourcesToDelete deleteOrderedKinds with
      | none => none
      | some (none, s1, _) => some (IterOutcome.halt s1)
      | some (some _, s1, _) => some (IterOutcome.again s1)

/-- The terminal error of lines 297-299, naming the application and namespace. -/
def failedToClearMsg (appSlug ns : String) : String :=
  "Failed to clear app " ++ appSlug ++ " from namespace " ++ ns ++ "\n"

/-- The per-namespace retry loop of `clearNamespaces` (lines 281-302), counting
down from `i = 60` to `0` inclusive; a 2-second sleep separates consecutive
iterations, and exhaustion with a still-failing delete pass returns the
terminal error. -/
def clearNamespaceLoop {σ : Type} (dyn : DynClient σ)
    (gvrs : List GroupVersionResource) (appSlug ns : String) (isRestore : Bool)
    (restoreLabelSelector : Option LabelSelector) (kindDeleteOrder : KindOrder) :
    Nat → σ → ClearTrace → Option (Option String × σ × ClearTrace)
  | 0, s, tr =>
    match clearNamespaceIter dyn gvrs appSlug ns isRestore restoreLabelSelector
        kindDeleteOrder s with
    | none => none
    | some (IterOutcome.halt s1) => some (none, s1, tr.bumpList)
    | some (IterOutcome.again s1) =>
      some (some (failedToClearMsg appSlug ns), s1, tr.bumpList)
  | Nat.succ i, s, tr =>
    match clearNamespaceIter dyn gvrs appSlug ns isRestore restoreLabelSelector
        kindDeleteOrder s with
    | none => none
    | some (IterOutcome.halt s1) => some (none, s1, tr.bumpList)
    | some (IterOutcome.again s1) =>
      clearNamespaceLoop dyn gvrs appSlug ns isRestore restoreLabelSelector
        kindDeleteOrder i s1 (tr.bumpList.addSleep 2)

/-- The `for _, namespace := range namespacesToClear` loop of `clearNamespaces`
(lines 278-304): an exhausted budget returns the terminal error immediately,
otherwise continue with the next namespace. -/
def clearNamespacesOver {σ : Type} (dyn : DynClient σ) (appSlug : String)
    (isRestore : Bool) (restoreLabelSelector : Option LabelSelector)
    (kindDeleteOrder : KindOrder) (dgvrs : List GroupVersionResource) :
    List String → σ → ClearTrace → Option (Except String Unit × σ × ClearTrace)
  | [], s, tr => some (Except.ok (), s, tr)
  | ns :: rest, s, tr =>
    match clearNamespaceLoop dyn dgvrs appSlug ns isRestore restoreLabelSelector
        kindDeleteOrder 60 s tr with
    | none => none
    | some (some e, s1, tr1) => some (Except.error e, s1, tr1)
    | some (none, s1, tr1) =>
      clearNamespacesOver dyn appSlug isRestore restoreLabelSelector kindDeleteOrder
        dgvrs rest s1 tr1

/-- Mirrors `clearNamespaces` (lines 256-311): filter the skip-set endpoints,
reconcile each namespace with the bounded retry loop, and on the fully
successful path sleep a final fixed 20 seconds when at least one namespace was
processed. `none` is a Go panic. -/
def clearNamespaces {σ : Type} (dyn : DynClient σ) (s : σ) (appSlug : String)
    (namespacesToClear : List String) (isRestore : Bool)
    (restoreLabelSelector : Option LabelSelector) (kindDeleteOrder : KindOrder)
    (gvrs : List GroupVersionResource) : Option (Except String Unit × σ × ClearTrace) :=
  match clearNamespacesOver dyn appSlug isRestore restoreLabelSelector kindDeleteOrder
      (filterDeletionGVRs gvrs) namespacesToClear s ⟨0, []⟩ with
  | none => none
  | some (Except.error e, s1, tr1) => some (Except.error e, s1, tr1)
  | some (Except.ok _, s1, tr1) =>
    if namespacesToClear.length > 0 then some (Except.ok (), s1, tr1.addSleep 20)
    else some (Except.ok (), s1, tr1)

/-! ## Characterization of the scheduler's default-kind collection (for C1) -/

/-- The kind, if any, that processing resource `r` would register in the
default segment: the empty-string key for a nil GVK, the literal kind for a
resource not classified as a custom-resource instance, nothing for a
CRD-indexed resource. This depends only on the resource and the CRD index,
not on the scheduler state. -/
def defaultTarget (crdGVKMap : List String) (r : Resource) : Option String :=
  match r.gvk with
  | none => some ""
  | some gvk =>
    if crdGVKMap.contains (buildGVKKey gvk.group gvk.kind gvk.version) then none
    else some gvk.kind

/-- The kinds `classifyStep` appends to the collected default order when
processing `r` against bucket map `m`. -/
def newEntry (crdGVKMap : List String) (m : ResourceMap) (r : Resource) : List String :=
  match defaultTarget crdGVKMap r with
  | some k => if mapHas m k then [] else [k]
  | none => []

theorem mem_newEntry (crd : List String) (m : ResourceMap) (r : Resource) (k : String) :
    k ∈ newEntry crd m r ↔ (mapHas m k = false ∧ defaultTarget crd r = some k) := by
  rcases htr : defaultTarget crd r with _ | k0
  · simp [newEntry, htr]
  · simp only [newEntry, htr]
    by_cases hm : mapHas m k0
    · rw [if_pos hm]
      simp only [List.not_mem_nil, false_iff, not_and]
      intro hmk hk
      rcases Option.some.inj hk with rfl
      rw [hm] at hmk
      cases hmk
    · rw [if_neg hm]
      simp only [List.mem_singleton]
      constructor
      · rintro rfl
        exact ⟨Bool.eq_false_iff.mpr hm, rfl⟩
      · rintro ⟨_, hk⟩
        exact (Option.some.inj hk).symm

theorem nodup_newEntry (crd : List String) (m : ResourceMap) (r : Resource) :
    (newEntry crd m r).Nodup := by
  rcases htr : defaultTarget crd r with _ | k0
  · simp [newEntry, htr]
  · simp only [newEntry, htr]
    by_cases hm : mapHas m k0
    · rw [if_pos hm]; exact List.nodup_nil
    · rw [if_neg hm]; exact List.nodup_singleton k0

theorem adjustResource_gvk (dns : String) (wf : Bool) (r : Resource) (u : Unstructured) :
    (adjustResource dns wf r u).gvk = r.gvk := rfl

theorem defaultTarget_of_gvk_none {crd : List String} {r : Resource} (hg : r.gvk = none) :
    defaultTarget crd r = some "" := by simp [defaultTarget, hg]

theorem defaultTarget_of_crdIndexed {crd : List String} {r : Resource}
    {gvk : GroupVersionKind} (hg : r.gvk = some gvk)
    (hc : crd.contains (buildGVKKey gvk.group gvk.kind gvk.version) = true) :
    defaultTarget crd r = none := by
  simp only [defaultTarget, hg]
  rw [hc]
  simp

theorem defaultTarget_of_plain {crd : List String} {r : Resource}
    {gvk : GroupVersionKind} (hg : r.gvk = some gvk)
    (hc : crd.contains (buildGVKKey gvk.group gvk.kind gvk.version) = false) :
    defaultTarget crd r = some gvk.kind := by
  simp only [defaultTarget, hg]
  rw [hc]
  simp

theorem newEntry_of_some {crd : List String} {m : ResourceMap} {r : Resource} {k0 : String}
    (htr : defaultTarget crd r = some k0) :
    newEntry crd m r = if mapHas m k0 then [] else [k0] := by simp [newEntry, htr]

theorem newEntry_of_none {crd : List String} {m : ResourceMap} {r : Resource}
    (htr : defaultTarget crd r = none) :
    newEntry crd m r = [] := by simp [newEntry, htr]

theorem classifyStep_spec (crd : List String) (dns : String) (wf : Bool)
    (d : List String) (m : ResourceMap) (r : Resource)
    (st' : List String × ResourceMap)
    (hCR : mapHas m "CustomResource" = true)
    (h : classifyStep crd dns wf (d, m) r = some st') :
    (∀ k, mapHas st'.2 k = true ↔
      (mapHas m k = true ∨ defaultTarget crd r = some k)) ∧
    st'.1 = d ++ newEntry crd m r := by
  match hu : r.unstructured with
  | none => rw [classifyStep, hu] at h; cases h
  | some u =>
    match hg : r.gvk with
    | none =>
      have hdt := @defaultTarget_of_gvk_none crd r hg
      rw [hdt, newEntry_of_some hdt]
      by_cases hm : mapHas m ""
      · have hval : classifyStep crd dns wf (d, m) r =
            some (d, mapAppend m "" (adjustResource dns wf r u)) := by
          simp [classifyStep, hu, adjustResource_gvk, hg, hm]
        rw [hval] at h
        cases h
        rw [if_pos hm, List.append_nil]
        refine ⟨fun k => ?_, rfl⟩
        rw [mapHas_mapAppend]
        by_cases hk : k = ""
        · subst hk; rw [if_pos rfl]; simp [hm]
        · rw [if_neg hk]
          constructor
          · exact fun hh => Or.inl hh
          · rintro (hh | hh)
            · exact hh
            · exact absurd (Option.some.inj hh).symm hk
      · have hval : classifyStep crd dns wf (d, m) r =
            some (d ++ [""], mapAppend (mapSet m "" []) "" (adjustResource dns wf r u)) := by
          simp [classifyStep, hu, adjustResource_gvk, hg, hm]
        rw [hval] at h
        cases h
        rw [if_neg hm]
        refine ⟨fun k => ?_, rfl⟩
        rw [mapHas_mapAppend, mapHas_mapSet]
        by_cases hk : k = ""
        · subst hk; rw [if_pos rfl]; simp
        · rw [if_neg hk, if_neg hk]
          constructor
          · exact fun hh => Or.inl hh
          · rintro (hh | hh)
            · exact hh
            · exact absurd (Option.some.inj hh).symm hk
    | some gvk =>
      by_cases hc : crd.contains (buildGVKKey gvk.group gvk.kind gvk.version) = true
      · have hdt := @defaultTarget_of_crdIndexed crd r gvk hg hc
        rw [hdt, newEntry_of_none hdt, List.append_nil]
        by_cases hm : mapHas m gvk.kind
        · have hval : classifyStep crd dns wf (d, m) r =
              some (d, mapAppend m gvk.kind (adjustResource dns wf r u)) := by
            simp only [classifyStep, hu, adjustResource_gvk, hg]
            rw [hc]
            simp [hm]
          rw [hval] at h
          cases h
          refine ⟨fun k => ?_, rfl⟩
          rw [mapHas_mapAppend]
          by_cases hk : k = gvk.kind
          · subst hk; rw [if_pos rfl]; simp [hm]
          · rw [if_neg hk]
            constructor
            · exact fun hh => Or.inl hh
            · rintro (hh | hh)
              · exact hh
              · cases hh
        · have hval : classifyStep crd dns wf (d, m) r =
              some (d, mapAppend m "CustomResource" (adjustResource dns wf r u)) := by
            simp only [classifyStep, hu, adjustResource_gvk, hg]
            rw [hc]
            simp [hm]
          rw [hval] at h
          cases h
          refine ⟨fun k => ?_, rfl⟩
          rw [mapHas_mapAppend]
          by_cases hk : k = "CustomResource"
          · subst hk; rw [if_pos rfl]; simp [hCR]
          · rw [if_neg hk]
            constructor
            · exact fun hh => Or.inl hh
            · rintro (hh | hh)
              · exact hh
              · cases hh
      · have hcf : crd.contains (buildGVKKey gvk.group gvk.kind gvk.version) = false :=
          Bool.eq_false_iff.mpr hc
        have hdt := @defaultTarget_of_plain crd r gvk hg hcf
        rw [hdt, newEntry_of_some hdt]
        by_cases hm : mapHas m gvk.kind
        · have hval : classifyStep crd dns wf (d, m) r =
              some (d, mapAppend m gvk.kind (adjustResource dns wf r u)) := by
            simp only [classifyStep, hu, adjustResource_gvk, hg]
            rw [hcf]
            simp [hm]
          rw [hval] at h
          cases h
          rw [if_pos hm, List.append_nil]
          refine ⟨fun k => ?_, rfl⟩
          rw [mapHas_mapAppend]
          by_cases hk : k = gvk.kind
          · subst hk; rw [if_pos rfl]; simp [hm]
          · rw [if_neg hk]
            constructor
            · exact fun hh => Or.inl hh
            · rintro (hh | hh)
              · exact hh
              · exact absurd (Option.some.inj hh).symm hk
        · have hval : classifyStep crd dns wf (d, m) r =
              some (d ++ [gvk.kind],
                mapAppend (mapSet m gvk.kind []) gvk.kind (adjustResource dns wf r u)) := by
            simp only [classifyStep, hu, adjustResource_gvk, hg]
            rw [hcf]
            simp [hm]
          rw [hval] at h
          cases h
          rw [if_neg hm]
          refine ⟨fun k => ?_, rfl⟩
          rw [mapHas_mapAppend, mapHas_mapSet]
          by_cases hk : k = gvk.kind
          · subst hk; rw [if_pos rfl]; simp
          · rw [if_neg hk, if_neg hk]
            constructor
            · exact fun hh => Or.inl hh
            · rintro (hh | hh)
              · exact hh
              · exact absurd (Option.some.inj hh).symm hk

theorem classifyFold_spec (crd : List String) (dns : String) (wf : Bool) :
    ∀ (rs : List Resource) (d : List String) (m : ResourceMap)
      (st' : List String × ResourceMap),
    mapHas m "CustomResource" = true →
    (∀ k, k ∈ d → mapHas m k = true) →
    d.Nodup →
    classifyFold crd dns wf rs (d, m) = some st' →
    (∀ k, mapHas st'.2 k = true ↔
      (mapHas m k = true ∨ ∃ r ∈ rs, defaultTarget crd r = some k)) ∧
    (∀ k, k ∈ st'.1 ↔
      (k ∈ d ∨ (mapHas m k = false ∧ ∃ r ∈ rs, defaultTarget crd r = some k))) ∧
    st'.1.Nodup
  | [], d, m, st', hCR, hd, hnd, h => by
    rw [classifyFold] at h
    cases h
    refine ⟨by simp, by simp, hnd⟩
  | r :: rs, d, m, st', hCR, hd, hnd, h => by
    rw [classifyFold] at h
    match hstep : classifyStep crd dns wf (d, m) r with
    | none => rw [hstep] at h; cases h
    | some st1 =>
      rw [hstep] at h
      obtain ⟨hkeys, hord⟩ := classifyStep_spec crd dns wf d m r st1 hCR hstep
      have hCR1 : mapHas st1.2 "CustomResource" = true :=
        (hkeys "CustomResource").mpr (Or.inl hCR)
      have hd1 : ∀ k, k ∈ st1.1 → mapHas st1.2 k = true := by
        intro k hk
        rw [hord] at hk
        rcases List.mem_append.mp hk with hk | hk
        · exact (hkeys k).mpr (Or.inl (hd k hk))
        · obtain ⟨_, htr⟩ := (mem_newEntry crd m r k).mp hk
          exact (hkeys k).mpr (Or.inr htr)
      have hnd1 : st1.1.Nodup := by
        rw [hord, List.nodup_append]
        refine ⟨hnd, nodup_newEntry crd m r, ?_⟩
        intro a ha hb
        obtain ⟨hmf, _⟩ := (mem_newEntry crd m r a).mp hb
        rw [hd a ha] at hmf
        cases hmf
      obtain ⟨ih1, ih2, ih3⟩ :=
        classifyFold_spec crd dns wf rs st1.1 st1.2 st' hCR1 hd1 hnd1 (by
          cases st1
          exact h)
      refine ⟨?_, ?_, ih3⟩
      · intro k
        rw [ih1 k, hkeys k]
        constructor
        · rintro ((hmk | htr) | ⟨r', hr', htr'⟩)
          · exact Or.inl hmk
          · exact Or.inr ⟨r, List.mem_cons_self r rs, htr⟩
          · exact Or.inr ⟨r', List.mem_cons_of_mem r hr', htr'⟩
        · rintro (hmk | ⟨r', hr', htr'⟩)
          · exact Or.inl (Or.inl hmk)
          · rcases List.mem_cons.mp hr' with rfl | hr'
            · exact Or.inl (Or.inr htr')
            · exact Or.inr ⟨r', hr', htr'⟩
      · intro k
        rw [ih2 k]
        have hmem1 : k ∈ st1.1 ↔
            (k ∈ d ∨ (mapHas m k = false ∧ defaultTarget crd r = some k)) := by
          rw [hord, List.mem_append, mem_newEntry]
        rw [hmem1]
        constructor
        · rintro ((hk | ⟨hmk, htr⟩) | ⟨hfalse, r', hr', htr'⟩)
          · exact Or.inl hk
          · exact Or.inr ⟨hmk, r, List.mem_cons_self r rs, htr⟩
          · have hmk : mapHas m k = false := by
              rw [Bool.eq_false_iff] at hfalse ⊢
              intro hmt
              exact hfalse ((hkeys k).mpr (Or.inl hmt))
            exact Or.inr ⟨hmk, r', List.mem_cons_of_mem r hr', htr'⟩
        · rintro (hk | ⟨hmk, r', hr', htr'⟩)
          · exact Or.inl (Or.inl hk)
          · rcases List.mem_cons.mp hr' with rfl | hr'
            · exact Or.inl (Or.inr ⟨hmk, htr'⟩)
            · by_cases htr : defaultTarget crd r = some k
              · exact Or.inl (Or.inr ⟨hmk, htr⟩)
              · right
                refine ⟨?_, r', hr', htr'⟩
                rw [Bool.eq_false_iff]
                intro hh
                rcases (hkeys k).mp hh with hmt | htr2
                · rw [hmk] at hmt; cases hmt
                · exact htr htr2

theorem defaultTarget_congr {crd1 crd2 : List String}
    (hcrd : ∀ k, crd1.contains k = crd2.contains k) (r : Resource) :
    defaultTarget crd1 r = defaultTarget crd2 r := by
  rcases hg : r.gvk with _ | gvk
  · simp [defaultTarget, hg]
  · simp only [defaultTarget, hg, hcrd]

theorem buildDeleteKindOrderedResources_spec (ko : KindOrder) (dns : String)
    (wf : Bool) (crd : List String) (rs : List Resource)
    (out : ResourceMap × List String)
    (hCR : mapHas (initResourceKindOrderMap ko) "CustomResource" = true)
    (h : buildDeleteKindOrderedResources ko rs dns crd wf = some out) :
    ∃ d, out.2 = getOrderedKinds ko d ∧ d.Nodup ∧
      (∀ k, k ∈ d ↔ (mapHas (initResourceKindOrderMap ko) k = false ∧
        ∃ r ∈ rs, defaultTarget crd r = some k)) := by
  rw [buildDeleteKindOrderedResources] at h
  match hcf : classifyFold crd dns wf rs ([], initResourceKindOrderMap ko) with
  | none => rw [hcf] at h; cases h
  | some st =>
    rw [hcf] at h
    cases h
    obtain ⟨_, hmem, hnd⟩ := classifyFold_spec crd dns wf rs []
      (initResourceKindOrderMap ko) st hCR (by intro k hk; cases hk) List.nodup_nil hcf
    refine ⟨st.1, rfl, hnd, fun k => ?_⟩
    rw [hmem k]
    constructor
    · rintro (hk | ⟨hmf, hex⟩)
      · cases hk
      · exact ⟨hmf, hex⟩
    · rintro ⟨hmf, hex⟩
      exact Or.inr ⟨hmf, hex⟩

/-- C1: the scheduler's ordered kind sequence is
`preOrder ++ sort(newly seen default kinds) ++ postOrder`, and — provided the
reserved "CustomResource" key has a bucket in the kind-order table, as it does
in the default delete order — the newly seen set is characterized
independently of the input order, so the sequence is identical for every
permutation of the input resource list (and for any decode namespace, wait
flag, and membership-equal CRD index). Without the "CustomResource" bucket
the claim fails, see the counterexample. -/
theorem C1_ordered_kind_sequence (ko : KindOrder) (dns1 dns2 : String)
    (wf1 wf2 : Bool) (crd1 crd2 : List String) (rs1 rs2 : List Resource)
    (hCR : mapHas (initResourceKindOrderMap ko) "CustomResource" = true)
    (hcrd : ∀ k, crd1.contains k = crd2.contains k)
    (hperm : rs1.Perm rs2)
    (h1 : (buildDeleteKindOrderedResources ko rs1 dns1 crd1 wf1).isSome = true)
    (h2 : (buildDeleteKindOrderedResources ko rs2 dns2 crd2 wf2).isSome = true) :
    (buildDeleteKindOrderedResources ko rs1 dns1 crd1 wf1).map Prod.snd =
      (buildDeleteKindOrderedResources ko rs2 dns2 crd2 wf2).map Prod.snd ∧
    ∃ d, (buildDeleteKindOrderedResources ko rs1 dns1 crd1 wf1).map Prod.snd =
        some (ko.preOrder ++ sortStrings d ++ ko.postOrder) ∧ d.Nodup ∧
      (∀ k, k ∈ d ↔ (mapHas (initResourceKindOrderMap ko) k = false ∧
        ∃ r ∈ rs1, defaultTarget crd1 r = some k)) := by
  match hb1 : buildDeleteKindOrderedResources ko rs1 dns1 crd1 wf1 with
  | none => rw [hb1] at h1; cases h1
  | some out1 =>
    match hb2 : buildDeleteKindOrderedResources ko rs2 dns2 crd2 wf2 with
    | none => rw [hb2] at h2; cases h2
    | some out2 =>
      obtain ⟨d1, hseq1, hnd1, hchar1⟩ :=
        buildDeleteKindOrderedResources_spec ko dns1 wf1 crd1 rs1 out1 hCR hb1
      obtain ⟨d2, hseq2, hnd2, hchar2⟩ :=
        buildDeleteKindOrderedResources_spec ko dns2 wf2 crd2 rs2 out2 hCR hb2
      have hdperm : d1.Perm d2 := by
        rw [List.perm_ext_iff_of_nodup hnd1 hnd2]
        intro k
        rw [hchar1 k, hchar2 k]
        constructor
        · rintro ⟨hmf, r, hr, htr⟩
          exact ⟨hmf, r, hperm.mem_iff.mp hr, (defaultTarget_congr hcrd r) ▸ htr⟩
        · rintro ⟨hmf, r, hr, htr⟩
          exact ⟨hmf, r, hperm.mem_iff.mpr hr, (defaultTarget_congr hcrd r).symm ▸ htr⟩
      have hsort : sortStrings d1 = sortStrings d2 := sortStrings_eq_of_perm hdperm
      constructor
      · show some out1.2 = some out2.2
        rw [hseq1, hseq2, getOrderedKinds, getOrderedKinds, hsort]
      · refine ⟨d1, ?_, hnd1, hchar1⟩
        show some out1.2 = some (ko.preOrder ++ sortStrings d1 ++ ko.postOrder)
        rw [hseq1, getOrderedKinds]

/-! ## Concrete objects for the C1 counterexample and witness -/

/-- A custom-resource instance: its GVK triple `g/K/v` is in the CRD index. -/
def c1uK : Unstructured :=
  { apiGroup := "g", apiVersion := "v", kind := "K", name := "a", ns := "x",
    annotations := [], labels := [], hasDeletionTimestamp := false, crdConv := none }

/-- The custom-resource instance as a decoded manifest resource. -/
def c1rCrdInstance : Resource :=
  { wait := false, manifest := "m1", gvr := ⟨"", "", ""⟩,
    gvk := some ⟨"g", "v", "K"⟩, unstructured := some c1uK }

/-- A plain resource whose literal kind name is "CustomResource" but whose GVK
triple is not in the CRD index. -/
def c1uCR : Unstructured :=
  { apiGroup := "h", apiVersion := "v", kind := "CustomResource", name := "b", ns := "x",
    annotations := [], labels := [], hasDeletionTimestamp := false, crdConv := none }

/-- The plain "CustomResource"-kind resource as a decoded manifest resource. -/
def c1rLiteralCR : Resource :=
  { wait := false, manifest := "m2", gvr := ⟨"", "", ""⟩,
    gvk := some ⟨"h", "v", "CustomResource"⟩, unstructured := some c1uCR }

/-- A kind-order table with no pre- or post-order entries (in particular no
"CustomResource" bucket). -/
def c1ko : KindOrder := ⟨[], []⟩

/-- A CRD index containing exactly the triple of `c1rCrdInstance`. -/
def c1crd : List String := ["g/K/v"]

/-- C1 counterexample: with a kind-order table lacking a "CustomResource"
bucket, the two orders of the same two-resource batch yield different ordered
kind sequences (`[]` versus `["CustomResource"]`), so the sequence is not
determined by the set of kinds alone: processing the CRD-indexed resource
first creates the "CustomResource" map key, which stops the later literal
"CustomResource"-kind resource from registering in the default segment. -/
theorem C1_counterexample :
    List.Perm [c1rCrdInstance, c1rLiteralCR] [c1rLiteralCR, c1rCrdInstance] ∧
    (buildDeleteKindOrderedResources c1ko [c1rCrdInstance, c1rLiteralCR]
      "default" c1crd false).map Prod.snd = some [] ∧
    (buildDeleteKindOrderedResources c1ko [c1rLiteralCR, c1rCrdInstance]
      "default" c1crd false).map Prod.snd = some ["CustomResource"] :=
  ⟨by decide, by decide, by decide⟩

/-- C1 witness: the determinism theorem applied to the same two-resource batch
under the default delete order, whose table does contain "CustomResource". -/
theorem C1_witness :
    (buildDeleteKindOrderedResources defaultKindDeleteOrder
      [c1rCrdInstance, c1rLiteralCR] "default" c1crd false).map Prod.snd =
    (buildDeleteKindOrderedResources defaultKindDeleteOrder
      [c1rLiteralCR, c1rCrdInstance] "default" c1crd false).map Prod.snd :=
  (C1_ordered_kind_sequence defaultKindDeleteOrder "default" "default" false false
    c1crd c1crd [c1rCrdInstance, c1rLiteralCR] [c1rLiteralCR, c1rCrdInstance]
    (by decide) (fun _ => rfl) (by decide) (by rfl) (by rfl)).1

/-! ## C4: a manifest that fails to decode panics the delete pipeline -/

/-- A decoder on which every document fails (e.g. the single malformed
document "\x7b" is not valid YAML or JSON). -/
def c4dec : String → Option (Unstructured × GroupVersionKind) := fun _ => none

/-- A resource in the batch with a nil GVK makes `buildCrdGVKMap` dereference
the nil pointer `r.GVK` at line 184 (`r.GVK.Kind`), i.e. the whole pipeline
panics: the embedded function returns `none`. -/
theorem buildCrdGVKLoop_none_of_gvk_none :
    ∀ (rs : List Resource) (acc : List String) (r : Resource),
    r ∈ rs → r.gvk = none → buildCrdGVKLoop rs acc = none
  | [], _, _, hr, _ => absurd hr (List.not_mem_nil _)
  | r0 :: rest, acc, r, hr, hg => by
    rcases List.mem_cons.mp hr with rfl | hr
    · rw [buildCrdGVKLoop, buildCrdGVKStep, hg]
    · rw [buildCrdGVKLoop]
      match hstep : buildCrdGVKStep acc r0 with
      | none => rfl
      | some acc1 => exact buildCrdGVKLoop_none_of_gvk_none rest acc1 r hr hg

/-- C4: the claim is the intent (decode failures are preserved, bucketed under
the empty-string kind, and still deleted — dead branches at lines 212-220 and
127-135 handle exactly that), but the code panics first: `decodeManifests`
does preserve the failed document as a resource with nil GVK and nil object,
yet `buildCrdGVKMap` (line 184) reads `r.GVK.Kind` without a nil check, so
`deleteManifestResources` dereferences a nil pointer and never reaches the
bucketing or the delete. Evaluated here at the failing batch containing the
single undecodable document "\x7b". -/
theorem C4_decode_failure_panics :
    decodeManifests c4dec ["\x7b"] =
      [{ wait := false, manifest := "\x7b", gvr := ⟨"", "", ""⟩,
         gvk := none, unstructured := none }] ∧
    buildCrdGVKMap (decodeManifests c4dec ["\x7b"]) = none ∧
    deleteManifestResources c4dec ["\x7b"] "default" defaultKindDeleteOrder false =
      none :=
  ⟨rfl, rfl, rfl⟩

/-! ## C5: storage-claim resources never get a blocking wait -/

theorem adjustResource_wait_pvc (dns : String) (wf : Bool) (r : Resource)
    (u u' : Unstructured)
    (h : (adjustResource dns wf r u).unstructured = some u')
    (hk : u'.kind = "PersistentVolumeClaim") :
    (adjustResource dns wf r u).wait = false := by
  have hu' : (if u.ns = "" then { u with ns := dns } else u) = u' := Option.some.inj h
  have hkind : u.kind = "PersistentVolumeClaim" := by
    by_cases hns : u.ns = ""
    · rw [if_pos hns] at hu'
      rw [← hu'] at hk
      exact hk
    · rw [if_neg hns] at hu'
      rw [← hu'] at hk
      exact hk
  show shouldResourceWaitForDeletion u wf = false
  rw [shouldResourceWaitForDeletion, if_pos hkind]

theorem mem_mapGet_mapAppend {m : ResourceMap} {key : String} {r0 r' : Resource}
    {k : String} (hr : r' ∈ mapGet (mapAppend m key r0) k) :
    (∃ k0, r' ∈ mapGet m k0) ∨ r' = r0 := by
  rw [mapGet_mapAppend] at hr
  by_cases hk : k = key
  · rw [if_pos hk] at hr
    rcases List.mem_append.mp hr with h | h
    · exact Or.inl ⟨key, h⟩
    · exact Or.inr (List.mem_singleton.mp h)
  · rw [if_neg hk] at hr
    exact Or.inl ⟨k, hr⟩

theorem mem_mapGet_mapAppend_mapSet {m : ResourceMap} {key : String}
    {r0 r' : Resource} {k : String}
    (hr : r' ∈ mapGet (mapAppend (mapSet m key []) key r0) k) :
    (∃ k0, r' ∈ mapGet m k0) ∨ r' = r0 := by
  rw [mapGet_mapAppend] at hr
  by_cases hk : k = key
  · rw [if_pos hk, mapGet_mapSet, if_pos rfl, List.nil_append] at hr
    exact Or.inr (List.mem_singleton.mp hr)
  · rw [if_neg hk, mapGet_mapSet, if_neg hk] at hr
    exact Or.inl ⟨k, hr⟩

/-- Shape of one classification step: the resource was dereferenced
successfully and the new bucket map is the old one with the adjusted copy of
`r` appended to some bucket (possibly freshly initialized). -/
theorem classifyStep_shape (crd : List String) (dns : String) (wf : Bool)
    (d : List String) (m : ResourceMap) (r : Resource)
    (st' : List String × ResourceMap)
    (h : classifyStep crd dns wf (d, m) r = some st') :
    ∃ u key, r.unstructured = some u ∧
      (st'.2 = mapAppend m key (adjustResource dns wf r u) ∨
       st'.2 = mapAppend (mapSet m key []) key (adjustResource dns wf r u)) := by
  match hu : r.unstructured with
  | none => rw [classifyStep, hu] at h; cases h
  | some u =>
    refine ⟨u, ?_⟩
    match hg : r.gvk with
    | none =>
      by_cases hm : mapHas m ""
      · have hval : classifyStep crd dns wf (d, m) r =
            some (d, mapAppend m "" (adjustResource dns wf r u)) := by
          simp [classifyStep, hu, adjustResource_gvk, hg, hm]
        rw [hval] at h
        cases h
        exact ⟨"", rfl, Or.inl rfl⟩
      · have hval : classifyStep crd dns wf (d, m) r =
            some (d ++ [""], mapAppend (mapSet m "" []) "" (adjustResource dns wf r u)) := by
          simp [classifyStep, hu, adjustResource_gvk, hg, hm]
        rw [hval] at h
        cases h
        exact ⟨"", rfl, Or.inr rfl⟩
    | some gvk =>
      by_cases hc : crd.contains (buildGVKKey gvk.group gvk.kind gvk.version) = true
      · by_cases hm : mapHas m gvk.kind
        · have hval : classifyStep crd dns wf (d, m) r =
              some (d, mapAppend m gvk.kind (adjustResource dns wf r u)) := by
            simp only [classifyStep, hu, adjustResource_gvk, hg]
            rw [hc]
            simp [hm]
          rw [hval] at h
          cases h
          exact ⟨gvk.kind, rfl, Or.inl rfl⟩
        · have hval : classifyStep crd dns wf (d, m) r =
              some (d, mapAppend m "CustomResource" (adjustResource dns wf r u)) := by
            simp only [classifyStep, hu, adjustResource_gvk, hg]
            rw [hc]
            simp [hm]
          rw [hval] at h
          cases h
          exact ⟨"CustomResource", rfl, Or.inl rfl⟩
      · have hcf : crd.contains (buildGVKKey gvk.group gvk.kind gvk.version) = false :=
          Bool.eq_false_iff.mpr hc
        by_cases hm : mapHas m gvk.kind
        · have hval : classifyStep crd dns wf (d, m) r =
              some (d, mapAppend m gvk.kind (adjustResource dns wf r u)) := by
            simp only [classifyStep, hu, adjustResource_gvk, hg]
            rw [hcf]
            simp [hm]
          rw [hval] at h
          cases h
          exact ⟨gvk.kind, rfl, Or.inl rfl⟩
        · have hval : classifyStep crd dns wf (d, m) r =
              some (d ++ [gvk.kind],
                mapAppend (mapSet m gvk.kind []) gvk.kind (adjustResource dns wf r u)) := by
            simp only [classifyStep, hu, adjustResource_gvk, hg]
            rw [hcf]
            simp [hm]
          rw [hval] at h
          cases h
          exact ⟨gvk.kind, rfl, Or.inr rfl⟩

/-- Every resource in a bucket after the classification loop was either there
at the start or is the adjusted copy of one of the processed resources. -/
theorem classifyFold_mem (crd : List String) (dns : String) (wf : Bool) :
    ∀ (rs : List Resource) (st : List String × ResourceMap)
      (st' : List String × ResourceMap),
    classifyFold crd dns wf rs st = some st' →
    ∀ (k : String) (r' : Resource), r' ∈ mapGet st'.2 k →
    (∃ k0, r' ∈ mapGet st.2 k0) ∨
      ∃ r u, r ∈ rs ∧ r.unstructured = some u ∧ r' = adjustResource dns wf r u
  | [], st, st', h, k, r', hr => by
    rw [classifyFold] at h
    cases h
    exact Or.inl ⟨k, hr⟩
  | r :: rs, ⟨d, m⟩, st', h, k, r', hr => by
    rw [classifyFold] at h
    match hstep : classifyStep crd dns wf (d, m) r with
    | none => rw [hstep] at h; cases h
    | some st1 =>
      rw [hstep] at h
      rcases classifyFold_mem crd dns wf rs st1 st' h k r' hr with ⟨k0, hk0⟩ | ⟨r0, u0, hr0, hu0, heq⟩
      · obtain ⟨u, key, hu, hshape⟩ := classifyStep_shape crd dns wf d m r st1 hstep
        rcases hshape with hsh | hsh
        · rcases mem_mapGet_mapAppend (hsh ▸ hk0) with hin | heq
          · exact Or.inl hin
          · exact Or.inr ⟨r, u, List.mem_cons_self r rs, hu, heq⟩
        · rcases mem_mapGet_mapAppend_mapSet (hsh ▸ hk0) with hin | heq
          · exact Or.inl hin
          · exact Or.inr ⟨r, u, List.mem_cons_self r rs, hu, heq⟩
      · exact Or.inr ⟨r0, u0, List.mem_cons_of_mem r hr0, hu0, heq⟩

theorem mapGet_foldl_setEmpty :
    ∀ (l : List String) (m : ResourceMap), (∀ k, mapGet m k = []) →
    ∀ k, mapGet (l.foldl (fun m rt => mapSet m rt []) m) k = []
  | [], m, hm, k => hm k
  | a :: l, m, hm, k => by
    rw [List.foldl_cons]
    refine mapGet_foldl_setEmpty l (mapSet m a []) (fun k' => ?_) k
    rw [mapGet_mapSet]
    by_cases h : k' = a
    · rw [if_pos h]
    · rw [if_neg h]
      exact hm k'

theorem mapGet_initResourceKindOrderMap (ko : KindOrder) (k : String) :
    mapGet (initResourceKindOrderMap ko) k = [] := by
  simp only [initResourceKindOrderMap]
  refine mapGet_foldl_setEmpty ko.postOrder _ (fun k' => ?_) k
  exact mapGet_foldl_setEmpty ko.preOrder [] (fun _ => rfl) k'

/-- C5: in the delete map built by the scheduler, every resource whose object
kind is "PersistentVolumeClaim" carries `wait = false`, for every
caller-supplied wait flag (including `waitFlag = true`): its deletion is never
blocking. -/
theorem C5_pvc_never_waits (ko : KindOrder) (rs : List Resource) (dns : String)
    (crd : List String) (wf : Bool) (out : ResourceMap × List String)
    (k : String) (r : Resource) (u : Unstructured)
    (h : buildDeleteKindOrderedResources ko rs dns crd wf = some out)
    (hr : r ∈ mapGet out.1 k)
    (hu : r.unstructured = some u)
    (hk : u.kind = "PersistentVolumeClaim") :
    r.wait = false := by
  rw [buildDeleteKindOrderedResources] at h
  match hcf : classifyFold crd dns wf rs ([], initResourceKindOrderMap ko) with
  | none => rw [hcf] at h; cases h
  | some st =>
    rw [hcf] at h
    cases h
    rcases classifyFold_mem crd dns wf rs ([], initResourceKindOrderMap ko) st hcf
        k r hr with ⟨k0, hk0⟩ | ⟨r0, u0, _, _, heq⟩
    · rw [show (([], initResourceKindOrderMap ko) : List String × ResourceMap).2 =
        initResourceKindOrderMap ko from rfl, mapGet_initResourceKindOrderMap] at hk0
      cases hk0
    · subst heq
      exact adjustResource_wait_pvc dns wf r0 u0 u hu hk

/-- Concrete storage-claim object for the C5 witness. -/
def c5u : Unstructured :=
  { apiGroup := "", apiVersion := "v1", kind := "PersistentVolumeClaim", name := "data",
    ns := "x", annotations := [], labels := [], hasDeletionTimestamp := false,
    crdConv := none }

/-- The storage-claim resource, with the caller requesting a blocking wait. -/
def c5r : Resource :=
  { wait := true, manifest := "m", gvr := ⟨"", "", ""⟩,
    gvk := some ⟨"", "v1", "PersistentVolumeClaim"⟩, unstructured := some c5u }

/-- C5 witness: the theorem applied to a one-resource batch with
`waitFlag = true`; the bucketed copy of the claim resource has `wait = false`. -/
theorem C5_witness : ({ c5r with wait := false } : Resource).wait = false :=
  C5_pvc_never_waits ⟨[], []⟩ [c5r] "d" [] true
    ([("PersistentVolumeClaim", [{ c5r with wait := false }])], ["PersistentVolumeClaim"])
    "PersistentVolumeClaim" { c5r with wait := false } c5u
    (by decide) (by decide) (by decide) (by decide)

/-! ## C6: bucketing of CRD-indexed resources -/

/-- C6 (amended): a resource whose GVK triple is in the CRD index is appended
to the bucket of its literal kind name whenever that bucket already exists in
the bucket map at the moment the resource is processed — whether the bucket
was initialized from the kind-order table or created earlier in the batch by
another resource of the same kind — and only otherwise to the reserved
"CustomResource" bucket. The claim as stated (only table-initialized buckets
divert) fails, see the counterexample. -/
theorem C6_crd_bucketing (crd : List String) (dns : String) (wf : Bool)
    (d : List String) (m : ResourceMap) (r : Resource) (u : Unstructured)
    (gvk : GroupVersionKind) (st' : List String × ResourceMap)
    (hu : r.unstructured = some u) (hg : r.gvk = some gvk)
    (hc : crd.contains (buildGVKKey gvk.group gvk.kind gvk.version) = true)
    (h : classifyStep crd dns wf (d, m) r = some st') :
    st'.1 = d ∧
    (mapHas m gvk.kind = true →
      st'.2 = mapAppend m gvk.kind (adjustResource dns wf r u)) ∧
    (mapHas m gvk.kind = false →
      st'.2 = mapAppend m "CustomResource" (adjustResource dns wf r u)) := by
  by_cases hm : mapHas m gvk.kind
  · have hval : classifyStep crd dns wf (d, m) r =
        some (d, mapAppend m gvk.kind (adjustResource dns wf r u)) := by
      simp only [classifyStep, hu, adjustResource_gvk, hg]
      rw [hc]
      simp [hm]
    rw [hval] at h
    cases h
    exact ⟨rfl, fun _ => rfl, fun hf => by rw [hm] at hf; cases hf⟩
  · have hval : classifyStep crd dns wf (d, m) r =
        some (d, mapAppend m "CustomResource" (adjustResource dns wf r u)) := by
      simp only [classifyStep, hu, adjustResource_gvk, hg]
      rw [hc]
      simp [hm]
    rw [hval] at h
    cases h
    refine ⟨rfl, fun ht => ?_, fun _ => rfl⟩
    rw [ht] at hm
    cases (hm rfl)

/-- A plain resource of kind "K" whose GVK triple is not in the CRD index. -/
def c6uPlain : Unstructured :=
  { apiGroup := "p", apiVersion := "v", kind := "K", name := "a", ns := "x",
    annotations := [], labels := [], hasDeletionTimestamp := false, crdConv := none }

/-- The plain "K" resource. -/
def c6rPlain : Resource :=
  { wait := false, manifest := "m1", gvr := ⟨"", "", ""⟩,
    gvk := some ⟨"p", "v", "K"⟩, unstructured := some c6uPlain }

/-- A custom-resource instance of kind "K": its triple `g/K/v` is in the CRD
index. -/
def c6uCrdInst : Unstructured :=
  { apiGroup := "g", apiVersion := "v", kind := "K", name := "b", ns := "x",
    annotations := [], labels := [], hasDeletionTimestamp := false, crdConv := none }

/-- The custom-resource instance. -/
def c6rCrdInst : Resource :=
  { wait := false, manifest := "m2", gvr := ⟨"", "", ""⟩,
    gvk := some ⟨"g", "v", "K"⟩, unstructured := some c6uCrdInst }

/-- The CRD index for the C6 counterexample. -/
def c6crd : List String := ["g/K/v"]

/-- C6 counterexample: with an empty kind-order table (so no bucket for "K"
was initialized from the table), a CRD-indexed resource of kind "K" is still
bucketed under the literal kind "K" — not under "CustomResource" as the claim
states — because an earlier plain resource of the same kind created the "K"
bucket dynamically during the batch. -/
theorem C6_counterexample :
    mapHas (initResourceKindOrderMap ⟨[], []⟩) "K" = false ∧
    buildDeleteKindOrderedResources ⟨[], []⟩ [c6rPlain, c6rCrdInst] "d" c6crd false =
      some ([("K", [c6rPlain, c6rCrdInst])], ["K"]) ∧
    c6rCrdInst ∈ mapGet [("K", [c6rPlain, c6rCrdInst])] "K" ∧
    c6rCrdInst ∉ mapGet [("K", [c6rPlain, c6rCrdInst])] "CustomResource" :=
  ⟨by decide, by decide, by decide, by decide⟩

/-- The bucket map for the C6 witness: the "K" bucket already exists (created
earlier in the batch), holding the plain resource. -/
def c6m : ResourceMap := [("K", [c6rPlain])]

/-- C6 witness: the amended theorem applied to the custom-resource instance
processed against `c6m`. -/
theorem C6_witness :
    ((["K"], mapAppend c6m "K" c6rCrdInst) : List String × ResourceMap).1 = ["K"] ∧
    (mapHas c6m "K" = true →
      ((["K"], mapAppend c6m "K" c6rCrdInst) : List String × ResourceMap).2 =
        mapAppend c6m "K" (adjustResource "d" false c6rCrdInst c6uCrdInst)) ∧
    (mapHas c6m "K" = false →
      ((["K"], mapAppend c6m "K" c6rCrdInst) : List String × ResourceMap).2 =
        mapAppend c6m "CustomResource" (adjustResource "d" false c6rCrdInst c6uCrdInst)) :=
  C6_crd_bucketing c6crd "d" false ["K"] c6m c6rCrdInst c6uCrdInst ⟨"g", "v", "K"⟩
    (["K"], mapAppend c6m "K" c6rCrdInst) rfl rfl (by decide) (by decide)

/-! ## C10: the reconciler delete set contains only owned objects -/

/-- The conditions under which a listed live object may enter the delete set:
its `kots.io/app-slug` annotation equals the application slug, it is not
already pending deletion, and in restore mode it is not marked
exclude-from-backup and matches the converted restore selector when one is
supplied. -/
def ownedOk (appSlug : String) (isRestore : Bool) (sel : Option LabelSelector)
    (u : Unstructured) : Prop :=
  lookupDefault u.annotations "kots.io/app-slug" = appSlug ∧
  u.hasDeletionTimestamp = false ∧
  (isRestore = true →
    (lookupHas u.labels "velero.io/exclude-from-backup" ≠ some "true" ∧
     ∀ lsel, sel = some lsel → ∃ f, lsel.conv = some f ∧ f u.labels = true))

theorem labelSelectorAsSelector_of_none {lsel : LabelSelector} (h : lsel.conv = none) :
    labelSelectorAsSelector lsel =
      Except.error "failed to convert label selector to a selector" := by
  rw [labelSelectorAsSelector, h]

theorem labelSelectorAsSelector_of_some {lsel : LabelSelector}
    {f : List (String × String) → Bool} (h : lsel.conv = some f) :
    labelSelectorAsSelector lsel = Except.ok f := by
  rw [labelSelectorAsSelector, h]

theorem buildNSBucket_mem (appSlug : String) (gvr : GroupVersionResource)
    (st : ResourceMap × List String) (u : Unstructured) (k : String) (r' : Resource)
    (hr : r' ∈ mapGet (buildNSBucket appSlug gvr st u).1 k) :
    (∃ k0, r' ∈ mapGet st.1 k0) ∨
      (r' = nsResource gvr u ∧
       lookupDefault u.annotations "kots.io/app-slug" = appSlug ∧
       u.hasDeletionTimestamp = false) := by
  by_cases hann : lookupDefault u.annotations "kots.io/app-slug" = appSlug
  · by_cases hts : u.hasDeletionTimestamp = true
    · have hval : buildNSBucket appSlug gvr st u = st := by
        simp [buildNSBucket, hann, hts]
      rw [hval] at hr
      exact Or.inl ⟨k, hr⟩
    · by_cases hm : mapHas st.1 u.kind
      · have hval : buildNSBucket appSlug gvr st u =
            (mapAppend st.1 u.kind (nsResource gvr u), st.2) := by
          simp [buildNSBucket, hann, hts, hm]
        rw [hval] at hr
        rcases mem_mapGet_mapAppend hr with hin | heq
        · exact Or.inl hin
        · exact Or.inr ⟨heq, hann, Bool.eq_false_iff.mpr hts⟩
      · have hval : buildNSBucket appSlug gvr st u =
            (mapAppend (mapSet st.1 u.kind []) u.kind (nsResource gvr u),
             st.2 ++ [u.kind]) := by
          simp [buildNSBucket, hann, hts, hm]
        rw [hval] at hr
        rcases mem_mapGet_mapAppend_mapSet hr with hin | heq
        · exact Or.inl hin
        · exact Or.inr ⟨heq, hann, Bool.eq_false_iff.mpr hts⟩
  · have hval : buildNSBucket appSlug gvr st u = st := by
      simp [buildNSBucket, hann]
    rw [hval] at hr
    exact Or.inl ⟨k, hr⟩

theorem buildNSItemStep_mem (appSlug : String) (isRestore : Bool)
    (sel : Option LabelSelector) (gvr : GroupVersionResource)
    (st : ResourceMap × List String) (u : Unstructured)
    (st1 : ResourceMap × List String) (k : String) (r' : Resource)
    (h : buildNSItemStep appSlug isRestore sel gvr st u = Except.ok st1)
    (hr : r' ∈ mapGet st1.1 k) :
    (∃ k0, r' ∈ mapGet st.1 k0) ∨
      (r' = nsResource gvr u ∧ ownedOk appSlug isRestore sel u) := by
  by_cases hres : isRestore = true
  · by_cases hvel : lookupHas u.labels "velero.io/exclude-from-backup" = some "true"
    · have hval : buildNSItemStep appSlug isRestore sel gvr st u = Except.ok st := by
        simp [buildNSItemStep, hres, hvel]
      rw [hval] at h
      cases h
      exact Or.inl ⟨k, hr⟩
    · match hsel : sel with
      | none =>
        have hval : buildNSItemStep appSlug isRestore none gvr st u =
            Except.ok (buildNSBucket appSlug gvr st u) := by
          simp [buildNSItemStep, hres, hvel]
        rw [hval] at h
        cases h
        rcases buildNSBucket_mem appSlug gvr st u k r' hr with hin | ⟨heq, hann, hts⟩
        · exact Or.inl hin
        · exact Or.inr ⟨heq, hann, hts, fun _ => ⟨hvel, fun lsel hl => by cases hl⟩⟩
      | some lsel =>
        match hconv : lsel.conv with
        | none =>
          have hval : buildNSItemStep appSlug isRestore (some lsel) gvr st u =
              Except.error "failed to convert label selector to a selector" := by
            simp [buildNSItemStep, hres, hvel, labelSelectorAsSelector_of_none hconv]
          rw [hval] at h
          cases h
        | some f =>
          by_cases hf : f u.labels = true
          · have hval : buildNSItemStep appSlug isRestore (some lsel) gvr st u =
                Except.ok (buildNSBucket appSlug gvr st u) := by
              simp [buildNSItemStep, hres, hvel,
                labelSelectorAsSelector_of_some hconv, hf]
            rw [hval] at h
            cases h
            rcases buildNSBucket_mem appSlug gvr st u k r' hr with hin | ⟨heq, hann, hts⟩
            · exact Or.inl hin
            · refine Or.inr ⟨heq, hann, hts, fun _ => ⟨hvel, fun lsel' hl => ?_⟩⟩
              rcases Option.some.inj hl.symm with rfl
              exact ⟨f, hconv, hf⟩
          · have hval : buildNSItemStep appSlug isRestore (some lsel) gvr st u =
                Except.ok st := by
              simp [buildNSItemStep, hres, hvel,
                labelSelectorAsSelector_of_some hconv, hf]
            rw [hval] at h
            cases h
            exact Or.inl ⟨k, hr⟩
  · have hval : buildNSItemStep appSlug isRestore sel gvr st u =
        Except.ok (buildNSBucket appSlug gvr st u) := by
      simp [buildNSItemStep, hres]
    rw [hval] at h
    cases h
    rcases buildNSBucket_mem appSlug gvr st u k r' hr with hin | ⟨heq, hann, hts⟩
    · exact Or.inl hin
    · exact Or.inr ⟨heq, hann, hts, fun hir => absurd hir hres⟩

theorem buildNSItems_mem (appSlug : String) (isRestore : Bool)
    (sel : Option LabelSelector) (gvr : GroupVersionResource) :
    ∀ (items : List Unstructured) (st st' : ResourceMap × List String),
    buildNSItems appSlug isRestore sel gvr items st = Except.ok st' →
    ∀ (k : String) (r' : Resource), r' ∈ mapGet st'.1 k →
    (∃ k0, r' ∈ mapGet st.1 k0) ∨
      ∃ u, u ∈ items ∧ r' = nsResource gvr u ∧ ownedOk appSlug isRestore sel u
  | [], st, st', h, k, r', hr => by
    rw [buildNSItems] at h
    cases h
    exact Or.inl ⟨k, hr⟩
  | u :: items, st, st', h, k, r', hr => by
    rw [buildNSItems] at h
    match hstep : buildNSItemStep appSlug isRestore sel gvr st u with
    | Except.error e => rw [hstep] at h; cases h
    | Except.ok st1 =>
      rw [hstep] at h
      rcases buildNSItems_mem appSlug isRestore sel gvr items st1 st' h k r' hr with
        ⟨k0, hk0⟩ | ⟨u0, hu0, heq, how⟩
      · rcases buildNSItemStep_mem appSlug isRestore sel gvr st u st1 k0 r' hstep hk0 with
          hin | ⟨heq, how⟩
        · exact Or.inl hin
        · exact Or.inr ⟨u, List.mem_cons_self u items, heq, how⟩
      · exact Or.inr ⟨u0, List.mem_cons_of_mem u hu0, heq, how⟩

theorem buildNSGvrStep_mem {σ : Type} (dyn : DynClient σ) (s : σ)
    (appSlug ns : String) (isRestore : Bool) (sel : Option LabelSelector)
    (gvr : GroupVersionResource) (st st1 : ResourceMap × List String)
    (h : buildNSGvrStep dyn s appSlug ns isRestore sel gvr st = Except.ok st1)
    (k : String) (r' : Resource) (hr : r' ∈ mapGet st1.1 k) :
    (∃ k0, r' ∈ mapGet st.1 k0) ∨
      ∃ u, r' = nsResource gvr u ∧ ownedOk appSlug isRestore sel u := by
  rw [buildNSGvrStep] at h
  match hlist : dyn.listNS s gvr ns with
  | none =>
    rw [hlist] at h
    cases h
    exact Or.inl ⟨k, hr⟩
  | some items =>
    rw [hlist] at h
    rcases buildNSItems_mem appSlug isRestore sel gvr items st st1 h k r' hr with
      hin | ⟨u, _, heq, how⟩
    · exact Or.inl hin
    · exact Or.inr ⟨u, heq, how⟩

theorem buildNSGvrs_mem {σ : Type} (dyn : DynClient σ) (s : σ) (appSlug ns : String)
    (isRestore : Bool) (sel : Option LabelSelector) :
    ∀ (gl : List GroupVersionResource) (st st' : ResourceMap × List String),
    buildNSGvrs dyn s appSlug ns isRestore sel gl st = Except.ok st' →
    ∀ (k : String) (r' : Resource), r' ∈ mapGet st'.1 k →
    (∃ k0, r' ∈ mapGet st.1 k0) ∨
      ∃ gvr u, r' = nsResource gvr u ∧ ownedOk appSlug isRestore sel u
  | [], st, st', h, k, r', hr => by
    rw [buildNSGvrs] at h
    cases h
    exact Or.inl ⟨k, hr⟩
  | gvr :: gl, st, st', h, k, r', hr => by
    rw [buildNSGvrs] at h
    match hstep : buildNSGvrStep dyn s appSlug ns isRestore sel gvr st with
    | Except.error e => rw [hstep] at h; cases h
    | Except.ok st1 =>
      rw [hstep] at h
      rcases buildNSGvrs_mem dyn s appSlug ns isRestore sel gl st1 st' h k r' hr with
        ⟨k0, hk0⟩ | hfound
      · rcases buildNSGvrStep_mem dyn s appSlug ns isRestore sel gvr st st1 hstep
            k0 r' hk0 with hin | ⟨u, heq, how⟩
        · exact Or.inl hin
        · exact Or.inr ⟨gvr, u, heq, how⟩
      · exact Or.inr hfound

/-- C10: a listed live object enters the reconciler's delete set only when its
`kots.io/app-slug` annotation exactly equals the target application slug (and,
in restore mode, only when it is not labelled
`velero.io/exclude-from-backup = "true"` and matches the converted restore
selector when one is supplied); objects without that annotation value are
never part of the delete set. -/
theorem C10_only_owned_deleted {σ : Type} (dyn : DynClient σ) (s : σ)
    (gvrs : List GroupVersionResource) (appSlug ns : String) (isRestore : Bool)
    (sel : Option LabelSelector) (ko : KindOrder) (rmap : ResourceMap)
    (kinds : List String) (k : String) (r : Resource)
    (h : buildDeleteKindOrderedNamespaceResources dyn s gvrs appSlug ns isRestore
      sel ko = Except.ok (rmap, kinds))
    (hr : r ∈ mapGet rmap k) :
    ∃ u, r.unstructured = some u ∧ ownedOk appSlug isRestore sel u := by
  rw [buildDeleteKindOrderedNamespaceResources] at h
  match hb : buildNSGvrs dyn s appSlug ns isRestore sel gvrs
      (initResourceKindOrderMap ko, []) with
  | Except.error e => rw [hb] at h; cases h
  | Except.ok st =>
    rw [hb] at h
    cases h
    rcases buildNSGvrs_mem dyn s appSlug ns isRestore sel gvrs
        (initResourceKindOrderMap ko, []) st hb k r hr with ⟨k0, hk0⟩ | ⟨gvr, u, heq, how⟩
    · rw [show ((initResourceKindOrderMap ko, []) : ResourceMap × List String).1 =
        initResourceKindOrderMap ko from rfl, mapGet_initResourceKindOrderMap] at hk0
      cases hk0
    · exact ⟨u, by rw [heq]; rfl, how⟩

/-- An owned live object for the C10 witness. -/
def c10owned : Unstructured :=
  { apiGroup := "", apiVersion := "v1", kind := "ConfigMap", name := "cm1", ns := "ns1",
    annotations := [("kots.io/app-slug", "app")], labels := [],
    hasDeletionTimestamp := false, crdConv := none }

/-- An unowned live object (different app slug) for the C10 witness. -/
def c10stranger : Unstructured :=
  { apiGroup := "", apiVersion := "v1", kind := "ConfigMap", name := "cm2", ns := "ns1",
    annotations := [("kots.io/app-slug", "other")], labels := [],
    hasDeletionTimestamp := false, crdConv := none }

/-- The listed GVR for the reconciler examples. -/
def cGvrCM : GroupVersionResource := ⟨"", "v1", "configmaps"⟩

/-- A one-GVR client over a trivial state: listing returns one owned and one
unowned object, deletes always succeed. -/
def c10client : DynClient Unit :=
  { listNS := fun _ _ _ => some [c10owned, c10stranger],
    deleteObj := fun _ _ _ _ => (none, ()) }

/-- C10 witness: the theorem applied to the one bucketed resource of a
concrete build over `c10client` (the unowned object is filtered out). -/
theorem C10_witness :
    ∃ u, (nsResource cGvrCM c10owned).unstructured = some u ∧
      ownedOk "app" false none u :=
  C10_only_owned_deleted c10client () [cGvrCM] "app" "ns1" false none ⟨[], []⟩
    [("ConfigMap", [nsResource cGvrCM c10owned])] ["ConfigMap"] "ConfigMap"
    (nsResource cGvrCM c10owned) (by rfl) (by decide)

/-! ## C9: a reconciliation delete pass aborts on the first failure; the
manifest delete path never does -/

theorem deleteSeq_ok_total {σ : Type} (dyn : DynClient σ) (ns : String) :
    ∀ (rs : List Resource) (s : σ) (acc : List Resource) (s' : σ)
      (att : List Resource),
    deleteSeq dyn ns s rs acc = some (none, s', att) → att = acc ++ rs
  | [], s, acc, s', att, h => by
    rw [deleteSeq] at h
    cases h
    simp
  | r :: rest, s, acc, s', att, h => by
    match hu : r.unstructured with
    | none =>
      have hval : deleteSeq dyn ns s (r :: rest) acc = none := by
        simp only [deleteSeq, hu]
      rw [hval] at h
      cases h
    | some u =>
      match hdel : dyn.deleteObj s r.gvr ns u.name with
      | (some e, s1) =>
        have hval : deleteSeq dyn ns s (r :: rest) acc =
            some (some e, s1, acc ++ [r]) := by
          simp only [deleteSeq, hu, hdel]
        rw [hval] at h
        simp at h
      | (none, s1) =>
        have hval : deleteSeq dyn ns s (r :: rest) acc =
            deleteSeq dyn ns s1 rest (acc ++ [r]) := by
          simp only [deleteSeq, hu, hdel]
        rw [hval] at h
        have hrec := deleteSeq_ok_total dyn ns rest s1 (acc ++ [r]) s' att h
        rw [hrec]
        simp

theorem deleteSeq_abort {σ : Type} (dyn : DynClient σ) (ns : String) :
    ∀ (rs1 : List Resource) (r : Resource) (rs2 : List Resource) (s : σ)
      (acc : List Resource) (s' : σ) (att : List Resource) (u : Unstructured)
      (e : String) (s1 : σ),
    deleteSeq dyn ns s rs1 acc = some (none, s', att) →
    r.unstructured = some u →
    dyn.deleteObj s' r.gvr ns u.name = (some e, s1) →
    deleteSeq dyn ns s (rs1 ++ r :: rs2) acc = some (some e, s1, att ++ [r])
  | [], r, rs2, s, acc, s', att, u, e, s1, hpre, hu, hdel => by
    rw [deleteSeq] at hpre
    cases hpre
    rw [List.nil_append]
    simp only [deleteSeq, hu, hdel]
  | r1 :: rs1, r, rs2, s, acc, s', att, u, e, s1, hpre, hu, hdel => by
    match hu1 : r1.unstructured with
    | none =>
      have hval : deleteSeq dyn ns s (r1 :: rs1) acc = none := by
        simp only [deleteSeq, hu1]
      rw [hval] at hpre
      cases hpre
    | some u1 =>
      match hdel1 : dyn.deleteObj s r1.gvr ns u1.name with
      | (some e1, s11) =>
        have hval : deleteSeq dyn ns s (r1 :: rs1) acc =
            some (some e1, s11, acc ++ [r1]) := by
          simp only [deleteSeq, hu1, hdel1]
        rw [hval] at hpre
        simp at hpre
      | (none, s11) =>
        have hval : deleteSeq dyn ns s (r1 :: rs1) acc =
            deleteSeq dyn ns s11 rs1 (acc ++ [r1]) := by
          simp only [deleteSeq, hu1, hdel1]
        rw [hval] at hpre
        have hval2 : deleteSeq dyn ns s ((r1 :: rs1) ++ r :: rs2) acc =
            deleteSeq dyn ns s11 (rs1 ++ r :: rs2) (acc ++ [r1]) := by
          rw [List.cons_append]
          simp only [deleteSeq, hu1, hdel1]
        rw [hval2]
        exact deleteSeq_abort dyn ns rs1 r rs2 s11 (acc ++ [r1]) s' att u e s1 hpre hu hdel

theorem deleteManifestBucket_length (targetNS : String) :
    ∀ (rs : List Resource) (acc : List DeleteCmd) (out : List DeleteCmd),
    deleteManifestBucket targetNS rs acc = some out →
    out.length = acc.length + rs.length
  | [], acc, out, h => by
    rw [deleteManifestBucket] at h
    cases h
    simp
  | r :: rest, acc, out, h => by
    rw [deleteManifestBucket] at h
    match hc : deleteManifestResource r targetNS with
    | none => rw [hc] at h; cases h
    | some cmd =>
      rw [hc] at h
      have hrec := deleteManifestBucket_length targetNS rest (acc ++ [cmd]) out h
      rw [List.length_append] at hrec
      rw [hrec]
      simp only [List.length_cons, List.length_nil]
      omega

theorem deleteManifestCmds_length (rmap : ResourceMap) :
    ∀ (kinds : List String) (targetNS : String) (acc : List DeleteCmd)
      (out : List DeleteCmd),
    deleteManifestCmds rmap kinds targetNS acc = some out →
    out.length = acc.length + (flattenByKinds rmap kinds).length
  | [], targetNS, acc, out, h => by
    rw [deleteManifestCmds] at h
    cases h
    simp [flattenByKinds]
  | kind :: rest, targetNS, acc, out, h => by
    rw [deleteManifestCmds] at h
    match hb : deleteManifestBucket targetNS (mapGet rmap kind) acc with
    | none => rw [hb] at h; cases h
    | some acc1 =>
      rw [hb] at h
      have h1 := deleteManifestBucket_length targetNS (mapGet rmap kind) acc acc1 hb
      have h2 := deleteManifestCmds_length rmap rest targetNS acc1 out h
      rw [h2, h1]
      simp only [flattenByKinds, List.map_cons, List.flatten_cons, List.length_append]
      omega

/-- C9: within one reconciliation delete pass the first per-object Delete
failure aborts the pass. First conjunct: a pass that returns no error issued a
Delete for every resource of the flattened kind-ordered sequence. Second
conjunct: when the resources before `r` all delete cleanly and the Delete of
`r` fails with `e`, the pass returns `e` immediately and the resources after
`r` are never attempted (the attempted list is exactly the prefix plus `r`,
independent of `rs2`). Third conjunct, the contrast: the manifest delete path
emits a delete command for every bucketed resource — the applier's failures
are only logged (lines 139-145) and cannot stop the walk. -/
theorem C9_first_failure_aborts {σ : Type} (dyn : DynClient σ) (ns : String) :
    (∀ (rmap : ResourceMap) (kinds : List String) (s : σ)
       (out : Option String × σ × List Resource),
       clearNamespacedResources dyn s ns rmap kinds = some out →
       out.1 = none → out.2.2 = flattenByKinds rmap kinds) ∧
    (∀ (rs1 : List Resource) (r : Resource) (rs2 : List Resource) (s : σ)
       (s' : σ) (att : List Resource) (u : Unstructured) (e : String) (s1 : σ),
       deleteSeq dyn ns s rs1 [] = some (none, s', att) →
       r.unstructured = some u →
       dyn.deleteObj s' r.gvr ns u.name = (some e, s1) →
       deleteSeq dyn ns s (rs1 ++ r :: rs2) [] = some (some e, s1, rs1 ++ [r])) ∧
    (∀ (rmap : ResourceMap) (kinds : List String) (targetNS : String)
       (out : List DeleteCmd),
       deleteManifestCmds rmap kinds targetNS [] = some out →
       out.length = (flattenByKinds rmap kinds).length) := by
  refine ⟨?_, ?_, ?_⟩
  · intro rmap kinds s out h hok
    obtain ⟨derr, s', att⟩ := out
    cases hok
    have h0 := deleteSeq_ok_total dyn ns (flattenByKinds rmap kinds) s [] s' att h
    exact h0.trans (List.nil_append _)
  · intro rs1 r rs2 s s' att u e s1 hpre hu hdel
    have hatt : att = rs1 := by
      have h0 := deleteSeq_ok_total dyn ns rs1 s [] s' att hpre
      exact h0.trans (List.nil_append _)
    have habort := deleteSeq_abort dyn ns rs1 r rs2 s [] s' att u e s1 hpre hu hdel
    rw [hatt] at habort
    exact habort
  · intro rmap kinds targetNS out h
    have := deleteManifestCmds_length rmap kinds targetNS [] out h
    rw [this, List.length_nil, Nat.zero_add]

/-- The three resources for the C9 witness, listed in one bucket. -/
def c9u (nm : String) : Unstructured :=
  { apiGroup := "", apiVersion := "v1", kind := "ConfigMap", name := nm, ns := "ns1",
    annotations := [("kots.io/app-slug", "app")], labels := [],
    hasDeletionTimestamp := false, crdConv := none }

/-- A client whose state counts Delete calls: the second Delete fails. -/
def c9client : DynClient Nat :=
  { listNS := fun _ _ _ => some [c9u "a", c9u "b", c9u "c"],
    deleteObj := fun s _ _ _ => (if s = 1 then some "boom" else none, s + 1) }

/-- C9 witness: the abort conjunct applied to the concrete three-resource
sequence whose second Delete fails — the third resource is never attempted. -/
theorem C9_witness :
    deleteSeq c9client "ns1" 0
      ([nsResource cGvrCM (c9u "a")] ++ nsResource cGvrCM (c9u "b") ::
        [nsResource cGvrCM (c9u "c")]) [] =
      some (some "boom", 2, [nsResource cGvrCM (c9u "a")] ++ [nsResource cGvrCM (c9u "b")]) :=
  (C9_first_failure_aborts c9client "ns1").2.1
    [nsResource cGvrCM (c9u "a")] (nsResource cGvrCM (c9u "b"))
    [nsResource cGvrCM (c9u "c")] 0 1 [nsResource cGvrCM (c9u "a")] (c9u "b") "boom" 2
    (by rfl) (by rfl) (by rfl)

/-! ## Equation lemmas for the retry loop -/

theorem clearNamespaceLoop_zero {σ : Type} (dyn : DynClient σ)
    (gvrs : List GroupVersionResource) (appSlug ns : String) (isRestore : Bool)
    (sel : Option LabelSelector) (ko : KindOrder) (s : σ) (tr : ClearTrace) :
    clearNamespaceLoop dyn gvrs appSlug ns isRestore sel ko 0 s tr =
      match clearNamespaceIter dyn gvrs appSlug ns isRestore sel ko s with
      | none => none
      | some (IterOutcome.halt s1) => some (none, s1, tr.bumpList)
      | some (IterOutcome.again s1) =>
        some (some (failedToClearMsg appSlug ns), s1, tr.bumpList) := rfl

theorem clearNamespaceLoop_succ {σ : Type} (dyn : DynClient σ)
    (gvrs : List GroupVersionResource) (appSlug ns : String) (isRestore : Bool)
    (sel : Option LabelSelector) (ko : KindOrder) (i : Nat) (s : σ) (tr : ClearTrace) :
    clearNamespaceLoop dyn gvrs appSlug ns isRestore sel ko (i + 1) s tr =
      match clearNamespaceIter dyn gvrs appSlug ns isRestore sel ko s with
      | none => none
      | some (IterOutcome.halt s1) => some (none, s1, tr.bumpList)
      | some (IterOutcome.again s1) =>
        clearNamespaceLoop dyn gvrs appSlug ns isRestore sel ko i s1
          (tr.bumpList.addSleep 2) := rfl

/-- A halted first iteration (list failure, no keys in the bucket map, or a
fully successful delete pass) makes the single-namespace reconciliation
return success after exactly one list pass, followed only by the 20-second
grace sleep. -/
theorem clearNamespacesOver_nil {σ : Type} (dyn : DynClient σ) (appSlug : String)
    (isRestore : Bool) (sel : Option LabelSelector) (ko : KindOrder)
    (dgvrs : List GroupVersionResource) (s : σ) (tr : ClearTrace) :
    clearNamespacesOver dyn appSlug isRestore sel ko dgvrs [] s tr =
      some (Except.ok (), s, tr) := rfl

theorem clearNamespacesOver_cons {σ : Type} (dyn : DynClient σ) (appSlug : String)
    (isRestore : Bool) (sel : Option LabelSelector) (ko : KindOrder)
    (dgvrs : List GroupVersionResource) (ns : String) (rest : List String)
    (s : σ) (tr : ClearTrace) :
    clearNamespacesOver dyn appSlug isRestore sel ko dgvrs (ns :: rest) s tr =
      match clearNamespaceLoop dyn dgvrs appSlug ns isRestore sel ko 60 s tr with
      | none => none
      | some (some e, s1, tr1) => some (Except.error e, s1, tr1)
      | some (none, s1, tr1) =>
        clearNamespacesOver dyn appSlug isRestore sel ko dgvrs rest s1 tr1 := rfl

theorem clearNamespaces_single_of_halt {σ : Type} (dyn : DynClient σ) (s s' : σ)
    (appSlug ns : String) (isRestore : Bool) (sel : Option LabelSelector)
    (ko : KindOrder) (gvrs : List GroupVersionResource)
    (hiter : clearNamespaceIter dyn (filterDeletionGVRs gvrs) appSlug ns isRestore
      sel ko s = some (IterOutcome.halt s')) :
    clearNamespaces dyn s appSlug [ns] isRestore sel ko gvrs =
      some (Except.ok (), s', { listPasses := 1, sleepsSec := [20] }) := by
  have hloop : clearNamespaceLoop dyn (filterDeletionGVRs gvrs) appSlug ns isRestore
      sel ko 60 s ⟨0, []⟩ = some (none, s', ⟨1, []⟩) := by
    have h60 : (60 : Nat) = 59 + 1 := rfl
    rw [h60, clearNamespaceLoop_succ, hiter]
    rfl
  have hover : clearNamespacesOver dyn appSlug isRestore sel ko
      (filterDeletionGVRs gvrs) [ns] s ⟨0, []⟩ = some (Except.ok (), s', ⟨1, []⟩) := by
    rw [clearNamespacesOver_cons, hloop]
    exact clearNamespacesOver_nil dyn appSlug isRestore sel ko
      (filterDeletionGVRs gvrs) s' ⟨1, []⟩
  rw [clearNamespaces, hover]
  rfl

/-! ## C2: convergence behaviour of the reconciliation loop -/

/-- C2 (amended): the reconciler does not re-list after a delete pass that
reported no error — that pass breaks the loop at once. First conjunct: a
successful build whose bucket map has keys, followed by a delete pass with no
per-object error, halts the iteration (no second list pass). Second conjunct:
a halted first iteration (which also covers the zero-owned-objects and
list-failure cases) returns success with exactly one list pass plus the single
20-second grace sleep. In the scenario of the claim (3 owned objects all
deleted in iteration 1), success therefore arrives after exactly 1 list pass,
not 2, and success is not equivalent to a list pass having found zero owned
objects — see the counterexample. -/
theorem C2_reconcile_convergence {σ : Type} (dyn : DynClient σ)
    (appSlug ns : String) (isRestore : Bool) (sel : Option LabelSelector)
    (ko : KindOrder) (gvrs : List GroupVersionResource) :
    (∀ (s s1 : σ) (rmap : ResourceMap) (kinds : List String) (att : List Resource),
       buildDeleteKindOrderedNamespaceResources dyn s (filterDeletionGVRs gvrs)
         appSlug ns isRestore sel ko = Except.ok (rmap, kinds) →
       ¬ rmap.length = 0 →
       clearNamespacedResources dyn s ns rmap kinds = some (none, s1, att) →
       clearNamespaceIter dyn (filterDeletionGVRs gvrs) appSlug ns isRestore sel ko s =
         some (IterOutcome.halt s1)) ∧
    (∀ (s s' : σ),
       clearNamespaceIter dyn (filterDeletionGVRs gvrs) appSlug ns isRestore sel ko s =
         some (IterOutcome.halt s') →
       clearNamespaces dyn s appSlug [ns] isRestore sel ko gvrs =
         some (Except.ok (), s', { listPasses := 1, sleepsSec := [20] })) := by
  constructor
  · intro s s1 rmap kinds att hbuild hlen hdel
    simp [clearNamespaceIter, hbuild, hdel, hlen]
  · intro s s'
    exact clearNamespaces_single_of_halt dyn s s' appSlug ns isRestore sel ko gvrs

/-- One owned live object of the given name, for the reconciler scenarios. -/
def c2owned (nm : String) : Unstructured :=
  { apiGroup := "", apiVersion := "v1", kind := "ConfigMap", name := nm, ns := "ns1",
    annotations := [("kots.io/app-slug", "app")], labels := [],
    hasDeletionTimestamp := false, crdConv := none }

/-- The scenario-B client: the cluster state counts Delete calls; the first
list pass sees 3 owned objects, any later pass would see none, and every
Delete succeeds. -/
def c2client : DynClient Nat :=
  { listNS := fun s _ _ =>
      if s = 0 then some [c2owned "a", c2owned "b", c2owned "c"] else some [],
    deleteObj := fun s _ _ _ => (none, s + 1) }

/-- C2 counterexample: in the claim's scenario (3 owned objects, iteration 1
deletes all 3, a second list would return empty) the reconciler returns
success after exactly ONE list pass plus the grace sleep — the loop breaks on
the clean delete pass without re-listing — whereas the claim requires exactly
2 list passes and requires success exactly when a list pass finds zero owned
objects (here no list pass ever did). -/
theorem C2_counterexample :
    clearNamespaces c2client 0 "app" ["ns1"] false none ⟨[], []⟩ [cGvrCM] =
      some (Except.ok (), 3, { listPasses := 1, sleepsSec := [20] }) ∧
    ¬ (1 : Nat) = 2 :=
  ⟨by rfl, by decide⟩

/-- C2 witness: the amended theorem's second conjunct applied to the
scenario-B client. -/
theorem C2_witness :
    clearNamespaces c2client 0 "app" ["ns1"] false none ⟨[], []⟩ [cGvrCM] =
      some (Except.ok (), 3, { listPasses := 1, sleepsSec := [20] }) :=
  (C2_reconcile_convergence c2client "app" "ns1" false none ⟨[], []⟩ [cGvrCM]).2
    0 3 (by rfl)

/-! ## C3: budget exhaustion yields the terminal error -/

theorem clearNamespaceLoop_exhaust {σ : Type} (dyn : DynClient σ)
    (gvrs2 : List GroupVersionResource) (appSlug ns : String) (isRestore : Bool)
    (sel : Option LabelSelector) (ko : KindOrder)
    (H : ∀ s : σ, ∃ s1, clearNamespaceIter dyn gvrs2 appSlug ns isRestore sel ko s =
      some (IterOutcome.again s1)) :
    ∀ (i : Nat) (s : σ) (tr : ClearTrace), ∃ s',
      clearNamespaceLoop dyn gvrs2 appSlug ns isRestore sel ko i s tr =
        some (some (failedToClearMsg appSlug ns), s',
          { listPasses := tr.listPasses + i + 1,
            sleepsSec := tr.sleepsSec ++ List.replicate i 2 })
  | 0, s, tr => by
    obtain ⟨s1, hit⟩ := H s
    refine ⟨s1, ?_⟩
    rw [clearNamespaceLoop_zero, hit]
    show some (some (failedToClearMsg appSlug ns), s1, tr.bumpList) = _
    have h1 : tr.bumpList =
        ({ listPasses := tr.listPasses + 0 + 1,
           sleepsSec := tr.sleepsSec ++ List.replicate 0 2 } : ClearTrace) := by
      simp [ClearTrace.bumpList]
    rw [h1]
  | i + 1, s, tr => by
    obtain ⟨s1, hit⟩ := H s
    obtain ⟨s', hrec⟩ := clearNamespaceLoop_exhaust dyn gvrs2 appSlug ns isRestore
      sel ko H i s1 (tr.bumpList.addSleep 2)
    refine ⟨s', ?_⟩
    rw [clearNamespaceLoop_succ, hit]
    show clearNamespaceLoop dyn gvrs2 appSlug ns isRestore sel ko i s1
      (tr.bumpList.addSleep 2) = _
    rw [hrec]
    have h1 : (tr.bumpList.addSleep 2).listPasses + i + 1 = tr.listPasses + (i + 1) + 1 := by
      simp [ClearTrace.bumpList, ClearTrace.addSleep]
      omega
    have h2 : (tr.bumpList.addSleep 2).sleepsSec ++ List.replicate i 2 =
        tr.sleepsSec ++ List.replicate (i + 1) 2 := by
      simp [ClearTrace.bumpList, ClearTrace.addSleep, List.replicate_succ]
    rw [h1, h2]

/-- C3: when the retry budget is exhausted — every iteration's list pass finds
a non-empty delete set and every delete pass reports an error — the
single-namespace reconciliation returns the terminal error message naming the
application and the namespace, never a silent success; the run performs all 61
iterations with the 60 interleaved 2-second sleeps and no grace sleep. -/
theorem C3_budget_exhaustion {σ : Type} (dyn : DynClient σ) (appSlug ns : String)
    (isRestore : Bool) (sel : Option LabelSelector) (ko : KindOrder)
    (gvrs : List GroupVersionResource)
    (H : ∀ s : σ, ∃ rmap kinds e s1 att,
       buildDeleteKindOrderedNamespaceResources dyn s (filterDeletionGVRs gvrs)
         appSlug ns isRestore sel ko = Except.ok (rmap, kinds) ∧
       ¬ rmap.length = 0 ∧
       clearNamespacedResources dyn s ns rmap kinds = some (some e, s1, att)) :
    ∀ s : σ, ∃ s',
      clearNamespaces dyn s appSlug [ns] isRestore sel ko gvrs =
        some (Except.error (failedToClearMsg appSlug ns), s',
          { listPasses := 61, sleepsSec := List.replicate 60 2 }) := by
  have Hit : ∀ s : σ, ∃ s1, clearNamespaceIter dyn (filterDeletionGVRs gvrs) appSlug
      ns isRestore sel ko s = some (IterOutcome.again s1) := by
    intro s
    obtain ⟨rmap, kinds, e, s1, att, hbuild, hlen, hdel⟩ := H s
    exact ⟨s1, by simp [clearNamespaceIter, hbuild, hdel, hlen]⟩
  intro s
  obtain ⟨s', hloop⟩ := clearNamespaceLoop_exhaust dyn (filterDeletionGVRs gvrs)
    appSlug ns isRestore sel ko Hit 60 s ⟨0, []⟩
  refine ⟨s', ?_⟩
  rw [clearNamespaces, clearNamespacesOver_cons, hloop]
  rfl

/-- A client on which the namespace can never be cleared: one owned object is
listed on every pass and every Delete call fails. -/
def c3client : DynClient Unit :=
  { listNS := fun _ _ _ => some [c2owned "a"],
    deleteObj := fun _ _ _ _ => (some "delete error", ()) }

/-- C3 witness: the theorem applied to `c3client`. -/
theorem C3_witness :
    ∃ s', clearNamespaces c3client () "app" ["ns1"] false none ⟨[], []⟩ [cGvrCM] =
      some (Except.error (failedToClearMsg "app" "ns1"), s',
        { listPasses := 61, sleepsSec := List.replicate 60 2 }) :=
  C3_budget_exhaustion c3client "app" "ns1" false none ⟨[], []⟩ [cGvrCM]
    (fun _ => ⟨[("ConfigMap", [nsResource cGvrCM (c2owned "a")])], ["ConfigMap"],
      "delete error", (), [nsResource cGvrCM (c2owned "a")],
      by rfl, by decide, by rfl⟩) ()

/-! ## C8: the actual iteration, sleep and grace-sleep accounting -/

theorem clearNamespaceLoop_bound {σ : Type} (dyn : DynClient σ)
    (gvrs2 : List GroupVersionResource) (appSlug ns : String) (isRestore : Bool)
    (sel : Option LabelSelector) (ko : KindOrder) :
    ∀ (i : Nat) (s : σ) (tr : ClearTrace) (out : Option String × σ × ClearTrace),
    clearNamespaceLoop dyn gvrs2 appSlug ns isRestore sel ko i s tr = some out →
    ∃ n, n ≤ i ∧ out.2.2.listPasses = tr.listPasses + n + 1 ∧
      out.2.2.sleepsSec = tr.sleepsSec ++ List.replicate n 2 ∧
      (∀ e, out.1 = some e → n = i)
  | 0, s, tr, out, h => by
    rw [clearNamespaceLoop_zero] at h
    match hit : clearNamespaceIter dyn gvrs2 appSlug ns isRestore sel ko s with
    | none => rw [hit] at h; cases h
    | some (IterOutcome.halt s1) =>
      rw [hit] at h
      cases h
      refine ⟨0, Nat.le_refl 0, by simp [ClearTrace.bumpList], by simp [ClearTrace.bumpList], ?_⟩
      intro e he
      cases he
    | some (IterOutcome.again s1) =>
      rw [hit] at h
      cases h
      exact ⟨0, Nat.le_refl 0, by simp [ClearTrace.bumpList], by simp [ClearTrace.bumpList],
        fun e _ => rfl⟩
  | i + 1, s, tr, out, h => by
    rw [clearNamespaceLoop_succ] at h
    match hit : clearNamespaceIter dyn gvrs2 appSlug ns isRestore sel ko s with
    | none => rw [hit] at h; cases h
    | some (IterOutcome.halt s1) =>
      rw [hit] at h
      cases h
      refine ⟨0, Nat.zero_le _, by simp [ClearTrace.bumpList], by simp [ClearTrace.bumpList], ?_⟩
      intro e he
      cases he
    | some (IterOutcome.again s1) =>
      rw [hit] at h
      obtain ⟨n, hn, hp, hs, herr⟩ := clearNamespaceLoop_bound dyn gvrs2 appSlug ns
        isRestore sel ko i s1 (tr.bumpList.addSleep 2) out h
      refine ⟨n + 1, Nat.succ_le_succ hn, ?_, ?_, fun e he => by rw [herr e he]⟩
      · rw [hp]
        simp [ClearTrace.bumpList, ClearTrace.addSleep]
        omega
      · rw [hs]
        simp [ClearTrace.bumpList, ClearTrace.addSleep, List.replicate_succ]

/-- C8 (amended): for one namespace the retry loop performs at most 61
list/delete attempts — the counter runs from 60 down to 0 inclusive, so the
claim's bound of 60 is off by one — with a fixed 2-second sleep between
consecutive attempts (at most 60 sleeps); the single fixed 20-second grace
sleep is appended only on the successful return, while budget exhaustion
(the error return, reached exactly when all 61 attempts ran) skips it. -/
theorem C8_retry_budget {σ : Type} (dyn : DynClient σ) (s : σ)
    (appSlug ns : String) (isRestore : Bool) (sel : Option LabelSelector)
    (ko : KindOrder) (gvrs : List GroupVersionResource)
    (out : Except String Unit × σ × ClearTrace)
    (h : clearNamespaces dyn s appSlug [ns] isRestore sel ko gvrs = some out) :
    ∃ n, n ≤ 60 ∧ out.2.2.listPasses = n + 1 ∧
      (out.1 = Except.ok () → out.2.2.sleepsSec = List.replicate n 2 ++ [20]) ∧
      (∀ e, out.1 = Except.error e →
        out.2.2.sleepsSec = List.replicate n 2 ∧ n = 60) := by
  rw [clearNamespaces, clearNamespacesOver_cons] at h
  match hloop : clearNamespaceLoop dyn (filterDeletionGVRs gvrs) appSlug ns isRestore
      sel ko 60 s ⟨0, []⟩ with
  | none => rw [hloop] at h; cases h
  | some (some e, s1, tr1) =>
    rw [hloop] at h
    cases h
    obtain ⟨n, hn, hp, hs, herr⟩ := clearNamespaceLoop_bound dyn (filterDeletionGVRs gvrs)
      appSlug ns isRestore sel ko 60 s ⟨0, []⟩ (some e, s1, tr1) hloop
    have hp2 : tr1.listPasses = n + 1 := by simpa using hp
    have hs2 : tr1.sleepsSec = List.replicate n 2 := by simpa using hs
    refine ⟨n, hn, hp2, ?_, ?_⟩
    · intro hok
      cases hok
    · intro e' he'
      exact ⟨hs2, herr e rfl⟩
  | some (none, s1, tr1) =>
    rw [hloop] at h
    cases h
    obtain ⟨n, hn, hp, hs, _⟩ := clearNamespaceLoop_bound dyn (filterDeletionGVRs gvrs)
      appSlug ns isRestore sel ko 60 s ⟨0, []⟩ (none, s1, tr1) hloop
    have hp2 : tr1.listPasses = n + 1 := by simpa using hp
    have hs2 : tr1.sleepsSec = List.replicate n 2 := by simpa using hs
    refine ⟨n, hn, hp2, ?_, ?_⟩
    · intro _
      show tr1.sleepsSec ++ [20] = List.replicate n 2 ++ [20]
      rw [hs2]
    · intro e' he'
      cases he'

/-- C8 counterexample: on the never-clearing client `c3client` the
reconciliation of one namespace performs 61 list/delete attempts — not the
claimed at-most-60 — with 60 two-second sleeps, and (because it fails) no
grace sleep. -/
theorem C8_counterexample :
    clearNamespaces c3client () "app" ["ns1"] false none ⟨[], []⟩ [cGvrCM] =
      some (Except.error (failedToClearMsg "app" "ns1"), (),
        { listPasses := 61, sleepsSec := List.replicate 60 2 }) ∧
    ¬ (61 : Nat) ≤ 60 :=
  ⟨by rfl, by decide⟩

/-- The outcome of the concrete exhausted run, for the C8 witness. -/
def c8out : Except String Unit × Unit × ClearTrace :=
  (Except.error (failedToClearMsg "app" "ns1"), (),
    { listPasses := 61, sleepsSec := List.replicate 60 2 })

/-- C8 witness: the amended bound applied to the concrete exhausted run. -/
theorem C8_witness :
    ∃ n, n ≤ 60 ∧ c8out.2.2.listPasses = n + 1 ∧
      (c8out.1 = Except.ok () → c8out.2.2.sleepsSec = List.replicate n 2 ++ [20]) ∧
      (∀ e, c8out.1 = Except.error e →
        c8out.2.2.sleepsSec = List.replicate n 2 ∧ n = 60) :=
  C8_retry_budget c3client () "app" "ns1" false none ⟨[], []⟩ [cGvrCM] c8out (by rfl)

/-! ## C7: a selector-conversion failure is logged and swallowed -/

theorem buildNSItems_conv_none_ok (appSlug : String) (gvr : GroupVersionResource)
    (lsel : LabelSelector) :
    ∀ (items : List Unstructured) (st : ResourceMap × List String),
    (∀ u ∈ items, lookupHas u.labels "velero.io/exclude-from-backup" = some "true") →
    buildNSItems appSlug true (some lsel) gvr items st = Except.ok st
  | [], st, _ => rfl
  | u :: items, st, hall => by
    have hv := hall u (List.mem_cons_self u items)
    have hstep : buildNSItemStep appSlug true (some lsel) gvr st u = Except.ok st := by
      simp [buildNSItemStep, hv]
    simp only [buildNSItems, hstep]
    exact buildNSItems_conv_none_ok appSlug gvr lsel items st
      (fun u' hu' => hall u' (List.mem_cons_of_mem u hu'))

theorem buildNSItems_conv_none_err (appSlug : String) (gvr : GroupVersionResource)
    (lsel : LabelSelector) (hconv : lsel.conv = none) :
    ∀ (items : List Unstructured) (st : ResourceMap × List String),
    (∃ u ∈ items, ¬ lookupHas u.labels "velero.io/exclude-from-backup" = some "true") →
    buildNSItems appSlug true (some lsel) gvr items st =
      Except.error "failed to convert label selector to a selector"
  | [], st, h => by
    obtain ⟨u, hu, _⟩ := h
    exact absurd hu (List.not_mem_nil u)
  | u :: items, st, h => by
    by_cases hv : lookupHas u.labels "velero.io/exclude-from-backup" = some "true"
    · have hstep : buildNSItemStep appSlug true (some lsel) gvr st u = Except.ok st := by
        simp [buildNSItemStep, hv]
      simp only [buildNSItems, hstep]
      refine buildNSItems_conv_none_err appSlug gvr lsel hconv items st ?_
      obtain ⟨u0, hu0, hnv⟩ := h
      rcases List.mem_cons.mp hu0 with rfl | hu0
      · exact absurd hv hnv
      · exact ⟨u0, hu0, hnv⟩
    · have hstep : buildNSItemStep appSlug true (some lsel) gvr st u =
          Except.error "failed to convert label selector to a selector" := by
        simp [buildNSItemStep, hv, labelSelectorAsSelector_of_none hconv]
      simp only [buildNSItems, hstep]

theorem buildNSGvrs_conv_none_err {σ : Type} (dyn : DynClient σ) (s : σ)
    (appSlug ns : String) (lsel : LabelSelector) (hconv : lsel.conv = none) :
    ∀ (gl : List GroupVersionResource) (st : ResourceMap × List String),
    (∃ gvr ∈ gl, ∃ items, dyn.listNS s gvr ns = some items ∧
      ∃ u ∈ items, ¬ lookupHas u.labels "velero.io/exclude-from-backup" = some "true") →
    buildNSGvrs dyn s appSlug ns true (some lsel) gl st =
      Except.error "failed to convert label selector to a selector"
  | [], st, h => by
    obtain ⟨gvr, hg, _⟩ := h
    exact absurd hg (List.not_mem_nil gvr)
  | gvr :: gl, st, h => by
    by_cases hcase : ∃ items, dyn.listNS s gvr ns = some items ∧
        ∃ u ∈ items, ¬ lookupHas u.labels "velero.io/exclude-from-backup" = some "true"
    · obtain ⟨items, hlist, hex⟩ := hcase
      have hstep : buildNSGvrStep dyn s appSlug ns true (some lsel) gvr st =
          Except.error "failed to convert label selector to a selector" := by
        simp only [buildNSGvrStep, hlist]
        exact buildNSItems_conv_none_err appSlug gvr lsel hconv items st hex
      simp only [buildNSGvrs, hstep]
    · have hstep : buildNSGvrStep dyn s appSlug ns true (some lsel) gvr st =
          Except.ok st := by
        match hlist : dyn.listNS s gvr ns with
        | none => simp only [buildNSGvrStep, hlist]
        | some items =>
          have hall : ∀ u ∈ items,
              lookupHas u.labels "velero.io/exclude-from-backup" = some "true" := by
            intro u hu
            by_contra hnu
            exact hcase ⟨items, hlist, u, hu, hnu⟩
          simp only [buildNSGvrStep, hlist]
          exact buildNSItems_conv_none_ok appSlug gvr lsel items st hall
      simp only [buildNSGvrs, hstep]
      refine buildNSGvrs_conv_none_err dyn s appSlug ns lsel hconv gl st ?_
      obtain ⟨gvr0, hg0, hrest⟩ := h
      rcases List.mem_cons.mp hg0 with rfl | hg0
      · exact absurd hrest hcase
      · exact ⟨gvr0, hg0, hrest⟩

/-- C7 (amended): a restore-selector conversion failure is surfaced as a
non-nil error by `buildDeleteKindOrderedNamespaceResources` to its caller
`clearNamespaces` — but there it is only logged and breaks that namespace's
loop (lines 283-285), so reconciliation itself returns success (nil), after a
single list pass plus the grace sleep, with the cluster untouched. The claim,
which requires the error to reach the reconciliation caller, fails — see the
counterexample. -/
theorem C7_selector_failure_swallowed {σ : Type} (dyn : DynClient σ) (s : σ)
    (appSlug ns : String) (lsel : LabelSelector) (ko : KindOrder)
    (gvrs : List GroupVersionResource)
    (hconv : lsel.conv = none)
    (hitem : ∃ gvr ∈ filterDeletionGVRs gvrs, ∃ items,
      dyn.listNS s gvr ns = some items ∧
      ∃ u ∈ items, ¬ lookupHas u.labels "velero.io/exclude-from-backup" = some "true") :
    buildDeleteKindOrderedNamespaceResources dyn s (filterDeletionGVRs gvrs) appSlug
      ns true (some lsel) ko =
      Except.error "failed to convert label selector to a selector" ∧
    clearNamespaces dyn s appSlug [ns] true (some lsel) ko gvrs =
      some (Except.ok (), s, { listPasses := 1, sleepsSec := [20] }) := by
  have hbuild : buildDeleteKindOrderedNamespaceResources dyn s (filterDeletionGVRs gvrs)
      appSlug ns true (some lsel) ko =
      Except.error "failed to convert label selector to a selector" := by
    have hg := buildNSGvrs_conv_none_err dyn s appSlug ns lsel hconv
      (filterDeletionGVRs gvrs) (initResourceKindOrderMap ko, []) hitem
    simp only [buildDeleteKindOrderedNamespaceResources, hg]
  refine ⟨hbuild, ?_⟩
  have hiter : clearNamespaceIter dyn (filterDeletionGVRs gvrs) appSlug ns true
      (some lsel) ko s = some (IterOutcome.halt s) := by
    simp only [clearNamespaceIter, hbuild]
  exact clearNamespaces_single_of_halt dyn s s appSlug ns true (some lsel) ko gvrs hiter

/-- A client for the C7 scenario: one listed object (without the
exclude-from-backup marker), deletes never needed. -/
def c7client : DynClient Unit :=
  { listNS := fun _ _ _ => some [c2owned "a"],
    deleteObj := fun _ _ _ _ => (none, ()) }

/-- A restore label selector whose conversion to a selector fails. -/
def c7sel : LabelSelector := ⟨none⟩

/-- C7 counterexample: the conversion failure makes the build return its error
to `clearNamespaces`, yet reconciliation returns success (`Except.ok`) to its
caller — the error is logged and recovered, not surfaced. -/
theorem C7_counterexample :
    buildDeleteKindOrderedNamespaceResources c7client () (filterDeletionGVRs [cGvrCM])
      "app" "ns1" true (some c7sel) ⟨[], []⟩ =
      Except.error "failed to convert label selector to a selector" ∧
    clearNamespaces c7client () "app" ["ns1"] true (some c7sel) ⟨[], []⟩ [cGvrCM] =
      some (Except.ok (), (), { listPasses := 1, sleepsSec := [20] }) :=
  ⟨rfl, rfl⟩

/-- C7 witness: the amended theorem applied to the concrete failing selector. -/
theorem C7_witness :
    buildDeleteKindOrderedNamespaceResources c7client () (filterDeletionGVRs [cGvrCM])
      "app" "ns1" true (some c7sel) ⟨[], []⟩ =
      Except.error "failed to convert label selector to a selector" ∧
    clearNamespaces c7client () "app" ["ns1"] true (some c7sel) ⟨[], []⟩ [cGvrCM] =
      some (Except.ok (), (), { listPasses := 1, sleepsSec := [20] }) :=
  C7_selector_failure_swallowed c7client () "app" "ns1" c7sel ⟨[], []⟩ [cGvrCM] rfl
    ⟨cGvrCM, by decide, [c2owned "a"], rfl, c2owned "a", by decide, by decide⟩

end KotsManifestDelete
